import Mathlib

/-!
Verification development for the OdooSecurityAudit synchronization and
reconciliation engine.

The Python sources under `app/backend/services/` are shallowly embedded:
Python strings are embedded as `List Char` (`PyStr`) so that the string
operations the services use (`lower`, `strip`, `split`, `replace`,
substring tests) become ordinary recursive functions amenable to proof.
Only ASCII behaviour of these operations is modelled; the repository's
identifiers and names are ASCII.

SQLAlchemy sessions are embedded explicitly: every table row carries a
`durable` value (what is on disk, i.e. visible after the last commit),
a `visible` value (what SQL queries see inside the open transaction,
i.e. after the last flush) and a `current` value (the in-memory object
the service mutates).  The repository configures its session factory with
`autoflush=False` (`app/backend/database.py`), so queries never flush
pending changes; this is why `visible` only advances on an explicit
`flush` and `durable` only on `commit`.  `rollback` returns every table
to its `durable` contents and discards rows that were never committed.
-/

/-- Python strings, embedded as lists of characters. -/
abbrev PyStr := List Char

/-- ASCII whitespace as recognised by Python's `str.split()` / `str.strip()`
(space, tab, newline, carriage return, vertical tab, form feed). -/
def isWs (c : Char) : Bool :=
  c = ' ' || c = '\t' || c = '\n' || c = '\r' || c = Char.ofNat 11 || c = Char.ofNat 12

/-- ASCII lower-casing of one character, as `str.lower()` does for ASCII. -/
def lowerChar (c : Char) : Char :=
  if 'A' ≤ c && c ≤ 'Z' then Char.ofNat (c.toNat + 32) else c

/-- `s.lower()`. -/
def pyLower (s : PyStr) : PyStr := s.map lowerChar

/-- `s.strip()`: drop ASCII whitespace from both ends. -/
def pyStrip (s : PyStr) : PyStr :=
  ((s.dropWhile isWs).reverse.dropWhile isWs).reverse

/-- Helper for `str.split()`: accumulate the current token (reversed) while
scanning; whitespace ends a token, empty tokens are dropped. -/
def splitWsAux : List Char → List Char → List PyStr
  | [], acc => if acc.isEmpty then [] else [acc.reverse]
  | c :: rest, acc =>
      if isWs c then
        if acc.isEmpty then splitWsAux rest [] else acc.reverse :: splitWsAux rest []
      else splitWsAux rest (c :: acc)

/-- `s.split()` with no separator: split on whitespace runs, no empty tokens. -/
def splitWs (s : PyStr) : List PyStr := splitWsAux s []

/-- `s.replace(",", "")`. -/
def removeCommas (s : PyStr) : PyStr := s.filter (fun c => c ≠ ',')

/-- Truthiness of an optional Python string: `None` and `""` are falsy. -/
def pyTruthy (s : Option PyStr) : Bool :=
  match s with
  | none => false
  | some l => !l.isEmpty

/-- Python `a or b` on optional strings: returns `a` when truthy, else `b`
(so `some "" or b` is `b`, and the result keeps `b` verbatim). -/
def pyOr (a b : Option PyStr) : Option PyStr :=
  if pyTruthy a then a else b

/-- All `(before, after)` decompositions of `s` around the separator `sep`
(`s = before ++ sep ++ after`), ordered by position of the occurrence. -/
def splitsOn (sep s : PyStr) : List (PyStr × PyStr) :=
  (List.range (s.length + 1)).filterMap fun i =>
    if sep.isPrefixOf (s.drop i) then some (s.take i, (s.drop i).drop sep.length)
    else none

/-- Python `sub in s` (substring containment). -/
def containsSub (s sub : PyStr) : Bool := !(splitsOn sub s).isEmpty

/-!
## Comparison engine (`app/backend/services/comparison_service.py`)

`_names_similar` compares the threshold as `len(common) >= min(...) * 0.7`
with the Python float `0.7`.  The float `0.7` is slightly below the
rational 7/10, and because `min(...) * 7/10` is exactly representable
whenever it is an integer below 2^53, the float comparison decides exactly
as the rational comparison `10 * len(common) >= 7 * min(...)` for every
token-set size that can arise; the embedding uses the rational form.
-/

/-- Token set of a name as `_names_similar` builds it:
`set(name.lower().replace(",", "").split())`, with the set embedded as a
deduplicated list. -/
def nameTokens (s : PyStr) : List PyStr :=
  (splitWs (removeCommas (pyLower s))).dedup

/-- `_names_similar(name1, name2)` from `comparison_service.py`. -/
def namesSimilar (name1 name2 : PyStr) : Bool :=
  if name1.isEmpty || name2.isEmpty then false
  else
    let n1 := nameTokens name1
    let n2 := nameTokens name2
    let common := n1.filter (fun t => t ∈ n2)
    7 * Nat.min n1.length n2.length ≤ 10 * common.length

/-- Normalisation applied to each side's name before the mismatch check in
`run_user_comparison`: `name.strip().lower() if name else ""`. -/
def normName (s : Option PyStr) : PyStr :=
  match s with
  | none => []
  | some l => if l.isEmpty then [] else pyLower (pyStrip l)

/-- The per-pair decision of `run_user_comparison` (lines 76–99): a
`name_mismatch` record is written exactly when both normalised names are
non-empty, they differ, and `_names_similar` rejects the pair. -/
def nameMismatchFlagged (azureName odooName : Option PyStr) : Bool :=
  let an := normName azureName
  let od := normName odooName
  !an.isEmpty && !od.isEmpty && an ≠ od &&
    !namesSimilar (azureName.getD []) (odooName.getD [])

/-- The token-set similarity score named by the specification:
`|intersection| / min(|tokensA|, |tokensB|)` as a rational. -/
def tokenSimilarity (name1 name2 : PyStr) : ℚ :=
  let n1 := nameTokens name1
  let n2 := nameTokens name2
  ((n1.filter (fun t => t ∈ n2)).length : ℚ) / (Nat.min n1.length n2.length : ℚ)

example : namesSimilar "Jane Doe".data "Doe, Jane".data = true := by decide
example : namesSimilar "Jane Doe".data "John Smith".data = false := by decide
example : nameMismatchFlagged (some "Jane Doe".data) (some "Doe, Jane".data) = false := by
  decide
example : nameMismatchFlagged (some "Jane Doe".data) (some "John Smith".data) = true := by
  decide

/-!
## Hidden user registry (`app/backend/services/hidden_user_registry.py`)

The registry file is one of four states: absent, unreadable (an `OSError`
on open/read), syntactically invalid JSON (a `json.JSONDecodeError`, which
`_ensure_loaded` also catches), or a parsed payload.  `_ensure_loaded`
maps the first three to an empty entry list and normalises/deduplicates
the fourth.
-/

/-- `" ".join(tokens)`. -/
def joinSpace (tokens : List PyStr) : PyStr := List.intercalate [' '] tokens

/-- `_normalize_token`: lower-cased, stripped, `None` when empty. -/
def normalizeToken (v : Option PyStr) : Option PyStr :=
  match v with
  | none => none
  | some l =>
      if l.isEmpty then none
      else
        let t := pyLower (pyStrip l)
        if t.isEmpty then none else some t

/-- `_normalize_name`: whitespace-collapsed, lower-cased, `None` when empty. -/
def normalizeName (v : Option PyStr) : Option PyStr :=
  match v with
  | none => none
  | some l =>
      if l.isEmpty then none
      else
        let cleaned := pyLower (joinSpace (splitWs (pyStrip l)))
        if cleaned.isEmpty then none else some cleaned

/-- Canonical user row (`User` in `app/data/models.py`).  `models.py` itself
is not under `src/`; the column set is taken from the code that reads and
writes these rows (`azure_sync.py`, `odoo_sync.py`, `api.py`) and from the
migration list in `app/backend/database.py`, which adds the columns without
uniqueness constraints. -/
structure UserF where
  name : Option PyStr := none
  email : Option PyStr := none
  department : Option PyStr := none
  azure_id : Option PyStr := none
  odoo_user_id : Option Int := none
  source_system : Option PyStr := none
  last_seen_in_azure_at : Option Nat := none
  is_hidden : Bool := false
deriving DecidableEq

/-- `HiddenUserSignature`. -/
structure HiddenSig where
  azure_id : Option PyStr
  email : Option PyStr
  name : Option PyStr
deriving DecidableEq

/-- `HiddenUserSignature.from_user`. -/
def sigFromUser (u : UserF) : HiddenSig :=
  { azure_id := normalizeToken u.azure_id
    email := normalizeToken u.email
    name := normalizeName u.name }

/-- `HiddenUserSignature.has_identifier`. -/
def sigHasIdentifier (s : HiddenSig) : Bool :=
  pyTruthy s.azure_id || pyTruthy s.email || pyTruthy s.name

/-- One raw JSON object from the registry file's entry list. -/
structure RawEntry where
  azure_id : Option PyStr := none
  email : Option PyStr := none
  name : Option PyStr := none
  label : Option PyStr := none
  display_name : Option PyStr := none
  original_name : Option PyStr := none
deriving DecidableEq

/-- A normalised in-memory registry entry. -/
structure HiddenEntry where
  azure_id : Option PyStr
  email : Option PyStr
  name : Option PyStr
  label : PyStr
deriving DecidableEq

/-- `HiddenUserRegistry._coerce_entry`. -/
def coerceEntry (e : RawEntry) : Option HiddenEntry :=
  let azure_id := normalizeToken e.azure_id
  let email := normalizeToken e.email
  let name := normalizeName e.name
  if !(pyTruthy azure_id || pyTruthy email || pyTruthy name) then none
  else
    let label :=
      pyOr e.label (pyOr e.display_name (pyOr e.original_name
        (pyOr e.name (pyOr e.email (pyOr e.azure_id (some "Hidden User".data))))))
    some { azure_id := azure_id, email := email, name := name, label := label.getD [] }

/-- `HiddenUserRegistry._entry_key`. -/
def entryKey (e : HiddenEntry) : PyStr × PyStr × PyStr :=
  (e.azure_id.getD [], e.email.getD [], e.name.getD [])

/-- One disjunct of `_entry_matches_signature`: both present and equal. -/
def optMatch (a b : Option PyStr) : Bool :=
  pyTruthy a && pyTruthy b && a == b

/-- `HiddenUserRegistry._entry_matches_signature`. -/
def entryMatches (e : HiddenEntry) (s : HiddenSig) : Bool :=
  optMatch e.azure_id s.azure_id || optMatch e.email s.email || optMatch e.name s.name

/-- The dedup-by-key pass of `_ensure_loaded` (`seen` set as a list of keys). -/
def normalizeEntries : List RawEntry → List (PyStr × PyStr × PyStr) → List HiddenEntry
  | [], _ => []
  | e :: rest, seen =>
      match coerceEntry e with
      | none => normalizeEntries rest seen
      | some ne =>
          if entryKey ne ∈ seen then normalizeEntries rest seen
          else ne :: normalizeEntries rest (entryKey ne :: seen)

/-- Python `a or b` on optional lists (an empty list is falsy). -/
def pyOrL {α : Type} (a b : Option (List α)) : Option (List α) :=
  match a with
  | some l => if l.isEmpty then b else some l
  | none => b

/-- The parsed registry file payload (a JSON object; `_ensure_loaded` reads
`payload.get("hidden_users") or payload.get("hidden") or []`). -/
structure RegistryPayload where
  hidden_users : Option (List RawEntry) := none
  hidden : Option (List RawEntry) := none

/-- The state of the registry file on disk when `_ensure_loaded` runs. -/
inductive RegistryFile where
  | missing
  | unreadable
  | invalidJson
  | valid (p : RegistryPayload)

/-- `HiddenUserRegistry._ensure_loaded`: a missing file, an `OSError` or a
JSON decode error all yield an empty list; a parsed payload is coerced and
deduplicated. -/
def loadEntries : RegistryFile → List HiddenEntry
  | .missing => []
  | .unreadable => []
  | .invalidJson => []
  | .valid p => normalizeEntries ((pyOrL p.hidden_users p.hidden).getD []) []

/-- `HiddenUserRegistry.should_hide_user` over loaded entries. -/
def shouldHideUser (entries : List HiddenEntry) (u : UserF) : Bool :=
  let s := sigFromUser u
  if !sigHasIdentifier s then false
  else entries.any (fun e => entryMatches e s)

/-- `HiddenUserRegistry.apply_hidden_flag`: sets `is_hidden` when the
registry matches, otherwise leaves the user unchanged. -/
def applyHiddenFlag (entries : List HiddenEntry) (u : UserF) : UserF :=
  if shouldHideUser entries u then { u with is_hidden := true } else u

/-- `HiddenUserRegistry.register_hidden_user`: returns whether a new entry
was added, together with the resulting entry list. -/
def registerHiddenUser (entries : List HiddenEntry) (u : UserF) :
    Bool × List HiddenEntry :=
  let s := sigFromUser u
  if !sigHasIdentifier s then (false, entries)
  else if entries.any (fun e => entryMatches e s) then (false, entries)
  else
    let label := pyOr u.name (pyOr u.email (pyOr u.azure_id (some "User".data)))
    (true, entries ++
      [{ azure_id := s.azure_id, email := s.email, name := s.name,
         label := label.getD [] }])

/-- `HiddenUserRegistry.remove_hidden_user`. -/
def removeHiddenUser (entries : List HiddenEntry) (u : UserF) :
    Bool × List HiddenEntry :=
  let s := sigFromUser u
  if !sigHasIdentifier s then (false, entries)
  else
    let kept := entries.filter (fun e => !entryMatches e s)
    (kept.length ≠ entries.length, kept)

/-- `HiddenUserRegistry.sync_from_database`, given the list of canonical
users currently flagged hidden: adds an entry for each not yet represented
and returns the count added. -/
def syncFromDatabase (entries : List HiddenEntry) (hiddenUsers : List UserF) :
    Nat × List HiddenEntry :=
  hiddenUsers.foldl
    (fun (acc : Nat × List HiddenEntry) u =>
      let s := sigFromUser u
      if !sigHasIdentifier s then acc
      else if acc.2.any (fun e => entryMatches e s) then acc
      else
        let label := pyOr u.name (pyOr u.email (pyOr u.azure_id (some "User".data)))
        (acc.1 + 1, acc.2 ++
          [{ azure_id := s.azure_id, email := s.email, name := s.name,
             label := label.getD [] }]))
    (0, entries)

example :
    shouldHideUser
      (loadEntries (.valid
        { hidden_users := some [{ azure_id := some "aad-1".data,
                                  email := some "jane@x.com".data }] }))
      { name := some "Jane Doe".data, email := some "JANE@x.com".data } = true := by
  decide
example : loadEntries .invalidJson = [] := by decide

/-!
## Sync run ledger (`app/backend/services/sync_runs.py`)

Stats payloads are JSON objects with string keys; the values a sync
actually stores are integers (plus one ISO-date string in comparison
stats), so values are embedded as integer-or-string.  `complete_sync_run`
stores the payload with `json.dumps` and `_parse_stats` re-reads it; the
round-trip is modelled as the identity, so a run's `stats` field below
already holds the parsed dictionary.
-/

/-- A JSON scalar stored in a stats payload. -/
inductive PyVal where
  | int (i : Int)
  | str (s : String)
deriving DecidableEq

/-- Python truthiness of a stats value (`0` and `""` are falsy). -/
def pyValTruthy : PyVal → Bool
  | .int i => i ≠ 0
  | .str s => s ≠ ""

/-- A parsed stats dictionary (keys unique, insertion order kept). -/
abbrev StatsD := List (String × PyVal)

/-- `dict.get(key)`. -/
def statGet (d : StatsD) (k : String) : Option PyVal :=
  (d.find? (fun e => e.1 = k)).map (fun e => e.2)

/-- `STAT_LABELS`, in source order. -/
def STAT_LABELS : List (String × String) :=
  [("processed", "Processed"),
   ("created", "New Records"),
   ("updated", "Updated Records"),
   ("total_users", "Total Users"),
   ("azure_users_total", "Azure Users"),
   ("groups_processed", "Groups Processed"),
   ("groups_created", "New Groups"),
   ("groups_updated", "Groups Updated"),
   ("users_created", "New Users"),
   ("users_updated", "Users Updated"),
   ("total_groups", "Total Groups"),
   ("documented_groups", "Documented Groups"),
   ("access_rights_created", "Access Rules Added"),
   ("access_rights_synced", "Access Rules Synced"),
   ("total_access_rights", "Total Access Rules"),
   ("orphaned_groups", "Groups Without Users")]

/-- One entry of the `diff` list built by `_build_change_summary`. -/
structure DiffItem where
  field : String
  label : String
  delta : Int
  current : Int
  previous : Int
deriving DecidableEq

/-- The labelled numeric deltas between two stats payloads (the loop over
`STAT_LABELS` in `_build_change_summary`). -/
def diffItems (current previous : StatsD) : List DiffItem :=
  STAT_LABELS.filterMap fun kl =>
    match statGet current kl.1, statGet previous kl.1 with
    | some (.int c), some (.int p) =>
        if c - p ≠ 0 then
          some { field := kl.1, label := kl.2, delta := c - p, current := c, previous := p }
        else none
    | _, _ => none

/-- `activity_fields` in `_build_change_summary`. -/
def activityFields : List String :=
  ["created", "updated", "groups_created", "groups_updated",
   "users_created", "users_updated"]

/-- `has_activity` in `_build_change_summary`: some activity counter of the
current run is truthy. -/
def hasActivity (cur : StatsD) : Bool :=
  activityFields.any fun f => pyValTruthy ((statGet cur f).getD (.int 0))

/-- `f"{delta:+}"`: render an integer with an explicit sign. -/
def fmtSigned (d : Int) : String :=
  if 0 ≤ d then "+" ++ toString d else toString d

/-- The result of `_build_change_summary`. -/
structure ChangeSummary where
  message : String
  diff : List DiffItem
  has_changes : Bool
deriving DecidableEq

/-- `_build_change_summary(current, previous)`.  `current`/`previous` are the
parsed stats payloads (`None` when the run has no stats or they failed to
parse); note Python's `if not current` also treats an empty dict as absent. -/
def buildChangeSummary (current previous : Option StatsD) : ChangeSummary :=
  match current with
  | none => { message := "No statistics recorded for this sync.", diff := [], has_changes := false }
  | some cur =>
      if cur.isEmpty then
        { message := "No statistics recorded for this sync.", diff := [], has_changes := false }
      else
        let diffs := match previous with
          | some prev => diffItems cur prev
          | none => []
        let has_activity := hasActivity cur
        let has_changes := !diffs.isEmpty || has_activity
        let message :=
          if !diffs.isEmpty then
            let preview := String.intercalate ", "
              ((diffs.take 3).map fun it => it.label ++ ": " ++ fmtSigned it.delta)
            let preview :=
              if diffs.length > 3 then
                preview ++ " (+" ++ toString (diffs.length - 3) ++ " more)"
              else preview
            "Changes detected — " ++ preview
          else if has_activity then
            "Sync processed records without net metric changes."
          else if previous.isSome then
            "No changes detected since previous sync."
          else
            "Initial sync completed."
        { message := message, diff := diffs, has_changes := has_changes }

/-- A `SyncRun` ledger row. -/
structure RunF where
  sync_type : String
  status : String
  started_at : Option Nat := none
  completed_at : Option Nat := none
  stats : Option StatsD := none
  error_message : Option String := none
deriving DecidableEq

/-- `_parse_stats(run)` (the JSON round-trip is the identity here). -/
def parseStats (run : Option RunF) : Option StatsD :=
  match run with
  | none => none
  | some r => r.stats

/-- The slice of `serialize_sync_run(run, previous_run)` the claims are
about: the change narrative fields derived from the two stats payloads. -/
def serializeSyncRun (run : RunF) (previous : Option RunF) : ChangeSummary :=
  buildChangeSummary (parseStats (some run)) (parseStats previous)

example :
    (serializeSyncRun { sync_type := "azure_users", status := "completed",
                        stats := some [("created", .int 1)] } none).message
      = "Sync processed records without net metric changes." := by decide
example :
    (serializeSyncRun { sync_type := "azure_users", status := "completed",
                        stats := some [("processed", .int 3)] } none).message
      = "Initial sync completed." := by decide

/-!
## Session and table model

One SQLAlchemy `Session` spans each sync run (`get_db` yields a single
session per request).  A row's `durable` field is its state as of the last
`commit`, `visible` its state as of the last `flush` (what `SELECT`s
inside the transaction return; `none` for a never-flushed insert, which a
query cannot see), and `current` the in-memory object state.  Queries
match on `visible` but hand back the live object (the identity map), so
mutations accumulate in `current`.  `first()` without `order_by` is
modelled as first in row-id order.
-/

/-- One table row with its three visibility levels. -/
structure Row (α : Type) where
  rid : Nat
  durable : Option α
  visible : Option α
  current : α
deriving DecidableEq

/-- A table: rows in row-id order plus the next row id. -/
structure Table (α : Type) where
  rows : List (Row α) := []
  nextId : Nat := 1
deriving DecidableEq

/-- Does a row's flushed state satisfy the filter?  A never-flushed insert
matches nothing. -/
def rowMatch {α : Type} (p : α → Bool) (r : Row α) : Bool :=
  match r.visible with
  | some v => p v
  | none => false

/-- `query(...).filter(p).first()`: first row whose flushed state matches. -/
def queryFirst {α : Type} (t : Table α) (p : α → Bool) : Option (Row α) :=
  t.rows.find? (rowMatch p)

/-- Mutate the live object of row `rid`. -/
def updateRow {α : Type} (t : Table α) (rid : Nat) (f : α → α) : Table α :=
  { t with rows := t.rows.map fun r =>
      if r.rid = rid then { r with current := f r.current } else r }

/-- `session.add` of a new object: invisible to queries until flushed. -/
def insertRow {α : Type} (t : Table α) (a : α) : Table α × Nat :=
  ({ rows := t.rows ++ [{ rid := t.nextId, durable := none, visible := none, current := a }]
     nextId := t.nextId + 1 }, t.nextId)

/-- `session.flush()` restricted to this table. -/
def flushTable {α : Type} (t : Table α) : Table α :=
  { t with rows := t.rows.map fun r => { r with visible := some r.current } }

/-- `session.commit()` restricted to this table. -/
def commitTable {α : Type} (t : Table α) : Table α :=
  { t with rows := t.rows.map fun r =>
      { r with durable := some r.current, visible := some r.current } }

/-- `session.rollback()` (+ `expire_all`) restricted to this table: never-
committed inserts disappear, everything else reverts to committed state. -/
def rollbackTable {α : Type} (t : Table α) : Table α :=
  { t with rows := t.rows.filterMap fun r =>
      r.durable.map fun d => { r with visible := some d, current := d } }

/-- The committed contents of a table (what an outside reader sees). -/
def durableRows {α : Type} (t : Table α) : List α :=
  t.rows.filterMap fun r => r.durable

/-!
## Azure user sync (`app/backend/services/azure_sync.py`)

`fetch_users` / `_load_mock_users` produce the record sequence; a feed is
the records actually yielded plus an optional error raised afterwards
(authentication failure before the first yield, or a pagination/network
failure mid-stream; a mock-file failure is a feed of zero records plus the
error).  `_upsert_users` never calls `flush`, so inside one run every
lookup sees only the pre-run committed store.
-/

/-- One raw Graph user record (`record.get(...)` on the listed keys). -/
structure AzureRecord where
  id : Option PyStr := none
  mail : Option PyStr := none
  userPrincipalName : Option PyStr := none
  displayName : Option PyStr := none
  department : Option PyStr := none
deriving DecidableEq

/-- Render an optional string inside an f-string (`None` prints as `None`). -/
def fstrOpt (v : Option PyStr) : PyStr :=
  match v with
  | none => "None".data
  | some s => s

/-- The identifier resolution of `_upsert_users` (lines 83–89): Azure id,
then email, then display name, skipping falsy identifiers, first match
wins. -/
def resolveAzureUser (t : Table UserF) (aid email name : Option PyStr) :
    Option (Row UserF) :=
  let byId := if pyTruthy aid then queryFirst t (fun u => u.azure_id == aid) else none
  match byId with
  | some r => some r
  | none =>
    let byEmail := if pyTruthy email then queryFirst t (fun u => u.email == email) else none
    match byEmail with
    | some r => some r
    | none => if pyTruthy name then queryFirst t (fun u => u.name == name) else none

/-- The unconditional field writes of `_upsert_users` (lines 97–103). -/
def applyAzureFields (t : Table UserF) (rid : Nat)
    (aid email name dept : Option PyStr) (now : Nat) : Table UserF :=
  updateRow t rid fun u =>
    { u with azure_id := aid, email := email, name := name, department := dept
             source_system := some "Azure".data
             last_seen_in_azure_at := some now }

/-- Stats dictionary of one Azure upsert run. -/
structure AzureStats where
  processed : Nat := 0
  created : Nat := 0
  updated : Nat := 0
deriving DecidableEq

/-- `email = record.get("mail") or record.get("userPrincipalName")`. -/
def azureRecEmail (r : AzureRecord) : Option PyStr :=
  pyOr r.mail r.userPrincipalName

/-- `name = record.get("displayName") or email or azure_id`. -/
def azureRecName (r : AzureRecord) : Option PyStr :=
  pyOr r.displayName (pyOr (azureRecEmail r) r.id)

/-- `User(name=name or f"Azure-{azure_id}")`: the object handed to
`session.add` on the create path. -/
def azureNewUser (r : AzureRecord) : UserF :=
  { name := pyOr (azureRecName r) (some ("Azure-".data ++ fstrOpt r.id)) }

/-- Process one record of the `_upsert_users` loop; `true` means created. -/
def azureProcessRecord (now : Nat) (t : Table UserF) (r : AzureRecord) :
    Table UserF × Bool :=
  let aid := r.id
  let email := azureRecEmail r
  let name := azureRecName r
  match resolveAzureUser t aid email name with
  | some row => (applyAzureFields t row.rid aid email name r.department now, false)
  | none =>
      let ins := insertRow t (azureNewUser r)
      (applyAzureFields ins.1 ins.2 aid email name r.department now, true)

/-- One fold step of the `_upsert_users` loop: process the record and
bump the counters. -/
def azureFoldStep (now : Nat) (acc : Table UserF × AzureStats) (r : AzureRecord) :
    Table UserF × AzureStats :=
  let step := azureProcessRecord now acc.1 r
  (step.1,
   { processed := acc.2.processed + 1
     created := acc.2.created + (if step.2 then 1 else 0)
     updated := acc.2.updated + (if step.2 then 0 else 1) })

/-- The `_upsert_users` loop (no commit yet). -/
def azureUpsertLoop (now : Nat) (t : Table UserF) (records : List AzureRecord) :
    Table UserF × AzureStats :=
  records.foldl (azureFoldStep now) (t, { : AzureStats })

/-- The stats payload `_upsert_users` returns. -/
def azureStatsD (s : AzureStats) : StatsD :=
  [("processed", .int s.processed), ("created", .int s.created),
   ("updated", .int s.updated)]

/-- The session state `sync_azure_users` touches: canonical users plus the
sync-run ledger, committed and rolled back together (one session). -/
structure AzState where
  users : Table UserF
  runs : Table RunF
deriving DecidableEq

/-- `session.commit()` for the Azure sync session. -/
def azCommit (s : AzState) : AzState :=
  { users := commitTable s.users, runs := commitTable s.runs }

/-- `create_sync_run(db, t)`: insert the `running` ledger row and commit. -/
def createSyncRun (s : AzState) (t : String) (now : Nat) : AzState × Nat :=
  let ins := insertRow s.runs { sync_type := t, status := "running", started_at := some now }
  (azCommit { s with runs := ins.1 }, ins.2)

/-- `complete_sync_run`: update the ledger row and commit the session. -/
def completeSyncRun (s : AzState) (rid : Nat) (status : String)
    (stats : Option StatsD) (err : Option String) (now : Nat) : AzState :=
  let runs := updateRow s.runs rid fun r =>
    { r with status := status, completed_at := some now
             stats := match stats with | some d => some d | none => r.stats
             error_message :=
               match err with
               | some m => if m ≠ "" then some m else r.error_message
               | none => r.error_message }
  azCommit { s with runs := runs }

/-- The record feed an adapter hands to `_upsert_users`: the records it
yields, then optionally an exception. -/
structure AzureFeed where
  records : List AzureRecord := []
  failure : Option String := none

/-- `sync_azure_users`: ledger row, upsert loop, commit on success; on an
adapter error the `except` branch marks the run failed via
`complete_sync_run`, whose `db.commit()` also commits whatever the aborted
loop had already staged in the session. -/
def syncAzureUsers (now : Nat) (st : AzState) (feed : AzureFeed) :
    AzState × Except String AzureStats :=
  let started := createSyncRun st "azure_users" now
  let loopOut := azureUpsertLoop now started.1.users feed.records
  let st1 := { started.1 with users := loopOut.1 }
  match feed.failure with
  | none =>
      let st2 := azCommit st1
      (completeSyncRun st2 started.2 "completed" (some (azureStatsD loopOut.2)) none now,
       .ok loopOut.2)
  | some msg =>
      (completeSyncRun st1 started.2 "failed" none (some msg) now, .error msg)

example :
    (durableRows
      ((syncAzureUsers 0 { users := {}, runs := {} }
        { records := [{ id := some "a1".data, displayName := some "Jane".data }]
          failure := some "network error" }).1).users).length = 1 := by decide

/-!
## Odoo Postgres sync (`app/backend/services/odoo_sync.py`)

`config/standards.json` is not under `src/`, and `_load_standards` falls
back to `{}` when the file is absent or unreadable; the embedding models
the configuration as absent, so `_detect_hierarchy_level` always returns
`None` and the default naming regex `^Odoo - (.+) / (.+)$` applies.
-/

/-- Truthiness of an optional Python integer (`None` and `0` are falsy). -/
def pyTruthyI (v : Option Int) : Bool :=
  match v with
  | none => false
  | some i => i ≠ 0

/-- Python `a or b` on optional integers. -/
def pyOrI (a b : Option Int) : Option Int :=
  if pyTruthyI a then a else b

/-- A datetime-ish JSON/DB value handed to `_parse_datetime`: a real
datetime, an ISO string carrying the result `fromisoformat` would produce
(`none` when it raises `ValueError`), or some other type. -/
inductive DTVal where
  | dt (n : Nat)
  | istr (parsed : Option Nat)
  | other
deriving DecidableEq

/-- `_parse_datetime`. -/
def parseDatetime : Option DTVal → Option Nat
  | some (.dt n) => some n
  | some (.istr p) => p
  | _ => none

/-- `_detect_hierarchy_level`: with the standards configuration absent both
lookup tables are empty, so every access level maps to `None`. -/
def detectHierarchyLevel (_level : Option PyStr) : Option Int := none

/-- `extract_module_and_access_level(name)`: the default pattern
`^Odoo - (.+) / (.+)$` (greedy: the *last* ` / ` with both sides
non-empty splits), then `^(.+?) / (.+)$` (lazy: the *first* ` / ` with
both sides non-empty), then `name.partition(" / ")` (the first ` / `
unconditionally, with empty sides mapped to `None`). -/
def extractModuleAccess (name : Option PyStr) :
    Option PyStr × Option PyStr × Option Int :=
  if !pyTruthy name then (none, none, none)
  else
    let n := name.getD []
    let sep := " / ".data
    let odooPrefix := "Odoo - ".data
    if odooPrefix.isPrefixOf n then
      let rest := n.drop odooPrefix.length
      match ((splitsOn sep rest).filter fun ba => !ba.1.isEmpty && !ba.2.isEmpty).getLast? with
      | some ba => (some (pyStrip ba.1), some (pyStrip ba.2), detectHierarchyLevel (some (pyStrip ba.2)))
      | none => matchAlt n sep
    else matchAlt n sep
where
  /-- The `alt_match` and `partition` fallbacks. -/
  matchAlt (n sep : PyStr) : Option PyStr × Option PyStr × Option Int :=
    match ((splitsOn sep n).filter fun ba => !ba.1.isEmpty && !ba.2.isEmpty).head? with
    | some ba => (some (pyStrip ba.1), some (pyStrip ba.2), detectHierarchyLevel (some (pyStrip ba.2)))
    | none =>
        match (splitsOn sep n).head? with
        | some ba =>
            let module := let m := pyStrip ba.1; if m.isEmpty then none else some m
            let access := let a := pyStrip ba.2; if a.isEmpty then none else some a
            (module, access, if access.isSome then detectHierarchyLevel access else none)
        | none => (none, none, none)

/-- A canonical `SecurityGroup` row (columns touched by the sync; the
documentation-status flag is kept because the final stats count it). -/
structure GroupF where
  name : PyStr
  module : Option PyStr := none
  category : Option PyStr := none
  access_level : Option PyStr := none
  hierarchy_level : Option Int := none
  purpose : Option PyStr := none
  user_access : Option PyStr := none
  allowed_functions : Option PyStr := none
  allowed_records : Option PyStr := none
  allowed_fields : Option PyStr := none
  inheritance_notes : Option PyStr := none
  odoo_created_by : Option PyStr := none
  odoo_updated_by : Option PyStr := none
  odoo_created_at : Option Nat := none
  odoo_updated_at : Option Nat := none
  odoo_id : Option Int := none
  source_system : Option PyStr := none
  synced_from_postgres_at : Option Nat := none
  is_documented : Bool := false
  last_audit_date : Option Int := none
  is_overdue_audit : Bool := false
deriving DecidableEq

/-- One raw group record of the payload. -/
structure GroupRecord where
  id : Option Int := none
  name : Option PyStr := none
  application : Option PyStr := none
  module_name : Option PyStr := none
  category_name : Option PyStr := none
  access_level : Option PyStr := none
  hierarchy_level : Option Int := none
  purpose : Option PyStr := none
  user_access : Option PyStr := none
  allowed_functions : Option PyStr := none
  allowed_records : Option PyStr := none
  allowed_fields : Option PyStr := none
  inheritance_notes : Option PyStr := none
  odoo_created_by : Option PyStr := none
  odoo_updated_by : Option PyStr := none
  odoo_created_at : Option DTVal := none
  odoo_updated_at : Option DTVal := none
  write_date : Option DTVal := none
deriving DecidableEq

/-- `application_name` (lines 398–404): first truthy of
`application`/`module_name`/`category_name`, stripped, `None` when empty. -/
def applicationName (r : GroupRecord) : Option PyStr :=
  match pyOr r.application (pyOr r.module_name r.category_name) with
  | none => none
  | some s => let st := pyStrip s; if st.isEmpty then none else some st

/-- `module_value`, `access_level_value`, `hierarchy_level_value`
(lines 406–409), derived from the record and the parsed name. -/
def groupDerivedValues (r : GroupRecord) :
    Option PyStr × Option PyStr × Option Int :=
  let app := applicationName r
  let parsed := extractModuleAccess r.name
  (pyOr app parsed.1, pyOr r.access_level parsed.2.1, pyOrI r.hierarchy_level parsed.2.2)

/-- Lines 446–450: external id, provenance tag, sync timestamp. -/
def groupUpdateBase (g : GroupF) (r : GroupRecord) (now : Nat) (env : PyStr) : GroupF :=
  { g with
    odoo_id := r.id
    source_system := some ("Odoo (".data ++ env ++ ")".data)
    synced_from_postgres_at := some now }

/-- Lines 451–455: module/category from the application name, with the
parsed module as an only-if-empty fallback. -/
def groupUpdateModule (g : GroupF) (app mv : Option PyStr) : GroupF :=
  if app.isSome then { g with module := app, category := app }
  else if pyTruthy mv && !pyTruthy g.module then { g with module := mv }
  else g

/-- Lines 456–457: access level, only when empty. -/
def groupUpdateAccess (g : GroupF) (alv : Option PyStr) : GroupF :=
  if pyTruthy alv && !pyTruthy g.access_level then { g with access_level := alv } else g

/-- Lines 458–459: hierarchy level, only when absent. -/
def groupUpdateHierarchy (g : GroupF) (hlv : Option Int) : GroupF :=
  if hlv.isSome && decide (g.hierarchy_level = none) then
    { g with hierarchy_level := hlv }
  else g

/-- Lines 460–461: purpose, only when the record provides one. -/
def groupUpdatePurpose (g : GroupF) (r : GroupRecord) : GroupF :=
  if r.purpose.isSome then { g with purpose := r.purpose } else g

/-- Lines 462–464: documentation texts, overwritten unconditionally. -/
def groupUpdateDocs (g : GroupF) (r : GroupRecord) : GroupF :=
  { g with
    allowed_functions := r.allowed_functions
    allowed_records := r.allowed_records
    allowed_fields := r.allowed_fields }

/-- Lines 465–466: user-access note, only when provided. -/
def groupUpdateUserAccess (g : GroupF) (r : GroupRecord) : GroupF :=
  if r.user_access.isSome then { g with user_access := r.user_access } else g

/-- Lines 467–474: inheritance notes and the Odoo audit trail, overwritten
unconditionally. -/
def groupUpdateTrail (g : GroupF) (r : GroupRecord) : GroupF :=
  { g with
    inheritance_notes := r.inheritance_notes
    odoo_created_by := r.odoo_created_by
    odoo_created_at := parseDatetime r.odoo_created_at
    odoo_updated_by := r.odoo_updated_by
    odoo_updated_at :=
      match parseDatetime r.odoo_updated_at with
      | some v => some v
      | none => parseDatetime r.write_date }

/-- The group update block of `_upsert_groups` (lines 445–474), applied to
a freshly created or matched group. -/
def applyGroupRecord (g : GroupF) (r : GroupRecord) (now : Nat) (env : PyStr) : GroupF :=
  let app := applicationName r
  let derived := groupDerivedValues r
  groupUpdateTrail
    (groupUpdateUserAccess
      (groupUpdateDocs
        (groupUpdatePurpose
          (groupUpdateHierarchy
            (groupUpdateAccess
              (groupUpdateModule (groupUpdateBase g r now env) app derived.1)
              derived.2.1)
            derived.2.2)
          r)
        r)
      r)
    r

/-- One raw res_users record of the payload. -/
structure OdooUserRecord where
  id : Option Int := none
  name : Option PyStr := none
  login : Option PyStr := none
deriving DecidableEq

/-- One raw membership record. -/
structure MembershipRec where
  user_id : Option Int := none
  group_id : Option Int := none
deriving DecidableEq

/-- One raw inheritance record. -/
structure InheritRec where
  parent_id : Option Int := none
  child_id : Option Int := none
deriving DecidableEq

/-- One raw access-right record. -/
structure ARRecord where
  id : Option Int := none
  group_id : Option Int := none
  model : Option PyStr := none
  model_name : Option PyStr := none
  perm_read : Option Bool := none
  perm_write : Option Bool := none
  perm_create : Option Bool := none
  perm_unlink : Option Bool := none
deriving DecidableEq

/-- An `AccessRight` row. -/
structure AccessRightF where
  group_id : Nat
  odoo_access_id : Option Int := none
  model_name : Option PyStr := none
  model_description : Option PyStr := none
  perm_read : Bool := false
  perm_write : Bool := false
  perm_create : Bool := false
  perm_unlink : Bool := false
  synced_at : Option Nat := none
deriving DecidableEq

/-- The payload `_fetch_from_postgres` / `_load_mock_payload` produce. -/
structure OdooPayload where
  groups : List GroupRecord := []
  users : List OdooUserRecord := []
  memberships : List MembershipRec := []
  inheritance : List InheritRec := []
  access_rights : List ARRecord := []

/-- The in-pass lookup dictionaries (`group_lookup` / `user_lookup`),
keyed by the raw external id (which may be `None`). -/
abbrev RidDict := List (Option Int × Nat)

/-- `d.get(k)`. -/
def dictGet (d : RidDict) (k : Option Int) : Option Nat :=
  (d.find? (fun e => e.1 = k)).map (fun e => e.2)

/-- `d[k] = v` (Python dicts keep the first-insertion position). -/
def dictSet (d : RidDict) (k : Option Int) (v : Nat) : RidDict :=
  if d.any (fun e => e.1 = k) then d.map (fun e => if e.1 = k then (k, v) else e)
  else d ++ [(k, v)]

/-- `d.values()` in insertion order. -/
def dictValues (d : RidDict) : List Nat := d.map (fun e => e.2)

/-- The session state `sync_odoo_postgres` touches.  Membership and
hierarchy edges are `(group rid, user rid)` / `(parent rid, child rid)`
pairs; `memberships`/`inheritance` hold committed edges and the `pending`
lists hold this session's not-yet-committed appends (collection reads see
both, a rollback drops only the pending part).  Nothing queries the
association tables through SQL before the final commit, so edge flushing
need not be tracked separately. -/
structure OdooState where
  users : Table UserF := {}
  groups : Table GroupF := {}
  memberships : List (Nat × Nat) := []
  pendingMemberships : List (Nat × Nat) := []
  inheritance : List (Nat × Nat) := []
  pendingInheritance : List (Nat × Nat) := []
  access_rights : Table AccessRightF := {}
  runs : Table RunF := {}
deriving DecidableEq

/-- `db.flush()` for the Odoo session. -/
def odooFlush (st : OdooState) : OdooState :=
  { st with users := flushTable st.users, groups := flushTable st.groups
            access_rights := flushTable st.access_rights, runs := flushTable st.runs }

/-- `db.commit()` for the Odoo session. -/
def odooCommit (st : OdooState) : OdooState :=
  { st with users := commitTable st.users, groups := commitTable st.groups
            access_rights := commitTable st.access_rights, runs := commitTable st.runs
            memberships := st.memberships ++ st.pendingMemberships
            pendingMemberships := []
            inheritance := st.inheritance ++ st.pendingInheritance
            pendingInheritance := [] }

/-- `db.rollback()` (+ `expire_all`) for the Odoo session. -/
def odooRollback (st : OdooState) : OdooState :=
  { st with users := rollbackTable st.users, groups := rollbackTable st.groups
            access_rights := rollbackTable st.access_rights, runs := rollbackTable st.runs
            pendingMemberships := [], pendingInheritance := [] }

/-- Counters accumulated by `_upsert_groups`. -/
structure OdooCounts where
  groups_created : Nat := 0
  groups_updated : Nat := 0
  users_created : Nat := 0
  users_updated : Nat := 0
  access_rights_created : Nat := 0
deriving DecidableEq

/-- Would flushing an insert of a group named `nm` violate the unique name
key?  `SecurityGroup.name` is the unique business key (spec §3); `models.py`
is not under `src/`, but the `IntegrityError` handler's own comment
("duplicate name") documents the constraint. -/
def groupNameConflict (t : Table GroupF) (nm : PyStr) : Bool :=
  t.rows.any fun r =>
    match r.visible with
    | some v => v.name = nm
    | none => false

/-- One iteration of the groups loop of `_upsert_groups` (lines 392–475):
skip nameless records, resolve by `odoo_id` then by exact name, create new
groups with an immediate flush (recovering from a unique-name
`IntegrityError` by rolling back and re-resolving, skipping the record if
still absent), apply the field updates, and record the group in
`group_lookup`. -/
def odooGroupStep (now : Nat) (env : PyStr)
    (acc : OdooState × OdooCounts × RidDict) (r : GroupRecord) :
    OdooState × OdooCounts × RidDict :=
  let st := acc.1
  let counts := acc.2.1
  let glook := acc.2.2
  let gid := r.id
  if !pyTruthy r.name then acc
  else
    let nm := r.name.getD []
    let found :=
      match (if pyTruthyI gid then queryFirst st.groups (fun g => g.odoo_id == gid) else none) with
      | some row => some row
      | none => queryFirst st.groups (fun g => g.name == nm)
    match found with
    | some row =>
        let st2 := { st with
          groups := updateRow st.groups row.rid (fun g => applyGroupRecord g r now env) }
        (st2, { counts with groups_updated := counts.groups_updated + 1 },
         dictSet glook gid row.rid)
    | none =>
        let derived := groupDerivedValues r
        let g0 : GroupF :=
          { name := nm, module := derived.1, category := applicationName r
            access_level := derived.2.1, hierarchy_level := derived.2.2 }
        if groupNameConflict st.groups nm then
          let st2 := odooRollback st
          match queryFirst st2.groups (fun g => g.name == nm) with
          | none => (st2, counts, glook)
          | some row =>
              let st3 := { st2 with
                groups := updateRow st2.groups row.rid (fun g => applyGroupRecord g r now env) }
              (st3, { counts with groups_updated := counts.groups_updated + 1 },
               dictSet glook gid row.rid)
        else
          let ins := insertRow st.groups g0
          let st2 := odooFlush { st with groups := ins.1 }
          let st3 := { st2 with
            groups := updateRow st2.groups ins.2 (fun g => applyGroupRecord g r now env) }
          (st3, { counts with groups_created := counts.groups_created + 1 },
           dictSet glook gid ins.2)

/-- `f"Odoo-{uid}"` rendering. -/
def fstrOptI (v : Option Int) : PyStr :=
  match v with
  | none => "None".data
  | some i => (toString i).data

/-- The field writes of the users loop (lines 511–516): external id,
email only when the incoming login is truthy, provenance tag, and the
hidden-overlay flag. -/
def applyOdooUserRecord (registry : List HiddenEntry) (env : PyStr)
    (uid : Option Int) (email : Option PyStr) (u : UserF) : UserF :=
  applyHiddenFlag registry
    { u with odoo_user_id := uid, email := pyOr email u.email
             source_system := some ("Odoo (".data ++ env ++ ")".data) }

/-- The identifier resolution of the users loop (lines 483–487): Odoo user
id, then login/email, first match wins. -/
def resolveOdooUser (t : Table UserF) (uid : Option Int) (email : Option PyStr) :
    Option (Row UserF) :=
  match (if pyTruthyI uid then queryFirst t (fun u => u.odoo_user_id == uid) else none) with
  | some row => some row
  | none => if pyTruthy email then queryFirst t (fun u => u.email == email) else none

/-- One iteration of the users loop of `_upsert_groups` (lines 478–517).
No uniqueness constraint on users is modelled (`models.py` is not under
`src/` and the migration code adds the user columns without constraints),
so the `IntegrityError` recovery at lines 495–507 — written for creation
races — has no reachable counterpart in this single-writer embedding. -/
def odooUserStep (env : PyStr) (registry : List HiddenEntry)
    (acc : OdooState × OdooCounts × RidDict) (r : OdooUserRecord) :
    OdooState × OdooCounts × RidDict :=
  let st := acc.1
  let counts := acc.2.1
  let ulook := acc.2.2
  let uid := r.id
  let name := pyOr r.name r.login
  let email := r.login
  let updateFields := applyOdooUserRecord registry env uid email
  match resolveOdooUser st.users uid email with
  | some row =>
      ({ st with users := updateRow st.users row.rid updateFields },
       { counts with users_updated := counts.users_updated + 1 },
       dictSet ulook uid row.rid)
  | none =>
      let u0 : UserF := { name := pyOr name (pyOr email (some ("Odoo-".data ++ fstrOptI uid))) }
      let ins := insertRow st.users u0
      let st2 := odooFlush { st with users := ins.1 }
      ({ st2 with users := updateRow st2.users ins.2 updateFields },
       { counts with users_created := counts.users_created + 1 },
       dictSet ulook uid ins.2)

/-- The edges `group.users` shows inside the run: committed plus pending. -/
def membershipEdges (st : OdooState) : List (Nat × Nat) :=
  st.memberships ++ st.pendingMemberships

/-- One iteration of the membership loop (lines 520–535): both sides must
be in the in-pass lookups, and the edge is appended only when absent. -/
def odooMembershipStep (glook ulook : RidDict) (st : OdooState) (m : MembershipRec) :
    OdooState :=
  match dictGet ulook m.user_id, dictGet glook m.group_id with
  | some urid, some grid =>
      if (grid, urid) ∈ membershipEdges st then st
      else { st with pendingMemberships := st.pendingMemberships ++ [(grid, urid)] }
  | _, _ => st

/-- One iteration of the inheritance loop (lines 538–551). -/
def odooInheritStep (glook : RidDict) (st : OdooState) (rel : InheritRec) : OdooState :=
  match dictGet glook rel.parent_id, dictGet glook rel.child_id with
  | some prid, some crid =>
      if (prid, crid) ∈ st.inheritance ++ st.pendingInheritance then st
      else { st with pendingInheritance := st.pendingInheritance ++ [(prid, crid)] }
  | _, _ => st

/-- Would flushing an insert of an access right violate the composite
`(group_id, odoo_access_id)` key (spec §3: upserted by that key)? -/
def arConflict (t : Table AccessRightF) (grid : Nat) (aid : Option Int) : Bool :=
  t.rows.any fun r =>
    match r.visible with
    | some v => v.group_id = grid ∧ v.odoo_access_id = aid
    | none => false

/-- One iteration of the access-rights loop (lines 554–612). -/
def odooARStep (now : Nat) (glook : RidDict) (acc : OdooState × OdooCounts)
    (ar : ARRecord) : OdooState × OdooCounts :=
  let st := acc.1
  let counts := acc.2
  match dictGet glook ar.group_id with
  | none => acc
  | some grid =>
      let pred := fun (a : AccessRightF) => a.group_id == grid && a.odoo_access_id == ar.id
      let updPerms := fun (a : AccessRightF) =>
        { a with perm_read := ar.perm_read.getD false, perm_write := ar.perm_write.getD false
                 perm_create := ar.perm_create.getD false, perm_unlink := ar.perm_unlink.getD false
                 synced_at := some now }
      match queryFirst st.access_rights pred with
      | some row =>
          ({ st with access_rights := updateRow st.access_rights row.rid updPerms }, counts)
      | none =>
          if arConflict st.access_rights grid ar.id then
            let st2 := odooRollback st
            match queryFirst st2.access_rights pred with
            | some row =>
                ({ st2 with access_rights := updateRow st2.access_rights row.rid updPerms },
                 counts)
            | none => (st2, counts)
          else
            let newAR : AccessRightF :=
              { group_id := grid, odoo_access_id := ar.id, model_name := ar.model
                model_description := ar.model_name
                perm_read := ar.perm_read.getD false, perm_write := ar.perm_write.getD false
                perm_create := ar.perm_create.getD false, perm_unlink := ar.perm_unlink.getD false
                synced_at := some now }
            let ins := insertRow st.access_rights newAR
            (odooFlush { st with access_rights := ins.1 },
             { counts with access_rights_created := counts.access_rights_created + 1 })

/-- Modelled from the spec: `SecurityGroup.refresh_documentation_status`
lives in `app/data/models.py`, which is not under `src/`, and
documentation/compliance scoring is explicitly outside the specification's
core; a fixed representative rule (documented iff a purpose is recorded)
stands in, and no claim depends on its exact shape. -/
def refreshDocumentationStatus (g : GroupF) : GroupF :=
  { g with is_documented := pyTruthy g.purpose }

/-- The audit pass over `group_lookup.values()` (lines 614–619). -/
def odooFinalizeGroup (today : Int) (st : OdooState) (rid : Nat) : OdooState :=
  { st with groups := updateRow st.groups rid fun g =>
      let g := refreshDocumentationStatus g
      match g.last_audit_date with
      | some d => { g with is_overdue_audit := today - d > 365 }
      | none => { g with is_overdue_audit := false } }

/-- `orphaned_groups`: committed groups with no committed membership edge. -/
def orphanedGroups (st : OdooState) : Nat :=
  (st.groups.rows.filter fun r =>
    r.durable.isSome && !(st.memberships.any fun e => e.1 = r.rid)).length

/-- The stats payload `_upsert_groups` returns (computed after the final
commit, so the totals are over committed rows). -/
def odooStatsD (p : OdooPayload) (c : OdooCounts) (st : OdooState) : StatsD :=
  [("groups_processed", .int p.groups.length),
   ("users_processed", .int p.users.length),
   ("groups_created", .int c.groups_created),
   ("groups_updated", .int c.groups_updated),
   ("users_created", .int c.users_created),
   ("users_updated", .int c.users_updated),
   ("access_rights_synced", .int p.access_rights.length),
   ("access_rights_created", .int c.access_rights_created),
   ("total_groups", .int (durableRows st.groups).length),
   ("documented_groups", .int ((durableRows st.groups).filter (fun g => g.is_documented)).length),
   ("total_access_rights", .int (durableRows st.access_rights).length),
   ("orphaned_groups", .int (orphanedGroups st))]

/-- `_upsert_groups(db, payload)`: groups, users, memberships, inheritance
and access rights in order, the audit pass, one commit at the end, then
the stats queries. -/
def upsertGroupsStage (now : Nat) (today : Int) (env : PyStr)
    (registry : List HiddenEntry) (st : OdooState) (p : OdooPayload) :
    OdooState × OdooCounts :=
  let a1 := p.groups.foldl (odooGroupStep now env) (st, {}, [])
  let a2 := p.users.foldl (odooUserStep env registry) (a1.1, a1.2.1, [])
  let glook := a1.2.2
  let ulook := a2.2.2
  let st3 := p.memberships.foldl (odooMembershipStep glook ulook) a2.1
  let st4 := p.inheritance.foldl (odooInheritStep glook) st3
  let a5 := p.access_rights.foldl (odooARStep now glook) (st4, a2.2.1)
  let st6 := (dictValues glook).foldl (odooFinalizeGroup today) a5.1
  (st6, a5.2)

def upsertGroups (now : Nat) (today : Int) (env : PyStr)
    (registry : List HiddenEntry) (st : OdooState) (p : OdooPayload) :
    OdooState × StatsD :=
  let b := upsertGroupsStage now today env registry st p
  let st7 := odooCommit b.1
  (st7, odooStatsD p b.2 st7)

/-- `create_sync_run` on the Odoo session. -/
def odooCreateSyncRun (st : OdooState) (t : String) (now : Nat) : OdooState × Nat :=
  let ins := insertRow st.runs { sync_type := t, status := "running", started_at := some now }
  (odooCommit { st with runs := ins.1 }, ins.2)

/-- `complete_sync_run` on the Odoo session. -/
def odooCompleteSyncRun (st : OdooState) (rid : Nat) (status : String)
    (stats : Option StatsD) (err : Option String) (now : Nat) : OdooState :=
  let runs := updateRow st.runs rid fun r =>
    { r with status := status, completed_at := some now
             stats := match stats with | some d => some d | none => r.stats
             error_message :=
               match err with
               | some m => if m ≠ "" then some m else r.error_message
               | none => r.error_message }
  odooCommit { st with runs := runs }

/-- The payload source for one run: either the fetched/mock payload or the
error `_fetch_from_postgres` / `_load_mock_payload` raised. -/
structure OdooFeed where
  payload : OdooPayload := {}
  failure : Option String := none

/-- `sync_odoo_postgres`: ledger row, fetch, upsert, completion.  A fetch
failure happens before any canonical mutation; `_upsert_groups` rolls the
whole batch back on an unrecovered error (its outer handler) and in this
embedding never raises. -/
def syncOdooPostgres (now : Nat) (today : Int) (env : PyStr)
    (registry : List HiddenEntry) (st : OdooState) (feed : OdooFeed) :
    OdooState × Except String StatsD :=
  let started := odooCreateSyncRun st "odoo_postgres" now
  match feed.failure with
  | some msg =>
      (odooCompleteSyncRun started.1 started.2 "failed" none (some msg) now, .error msg)
  | none =>
      let res := upsertGroups now today env registry started.1 feed.payload
      (odooCompleteSyncRun res.1 started.2 "completed" (some res.2) none now, .ok res.2)

/-!
## Relation schema discovery (`_fetch_from_postgres`, lines 258–327)

Each discovery block reads the `information_schema` column list of the
relation table, validates the first two column names, queries the raw
pairs and orients them by name-substring heuristics; any exception in the
block (missing table, access denied) yields an empty relation.  A block's
input is therefore either `none` (the exception case) or the discovered
column-name list together with the raw `(first column, second column)`
value pairs.
-/

/-- `col.replace('_', '').isalnum()` (ASCII alphanumerics). -/
def validSqlName (c : PyStr) : Bool :=
  let r := c.filter fun ch => ch ≠ '_'
  !r.isEmpty && r.all Char.isAlphanum

/-- The membership discovery block (lines 260–291): fewer than two columns
or an invalid name degrade to an empty relation; a `gid`/`group` token in
the first column means (group, user) order, a `uid`/`user` token means
(user, group) order, and anything else falls back to the (group, user)
default. -/
def membershipRelation (disc : Option (List PyStr × List (Int × Int))) :
    List MembershipRec :=
  match disc with
  | none => []
  | some (cols, rows) =>
      match cols with
      | c1 :: c2 :: _ =>
          if validSqlName c1 && validSqlName c2 then
            if containsSub (pyLower c1) "gid".data || containsSub (pyLower c1) "group".data then
              rows.map fun rw => { user_id := some rw.2, group_id := some rw.1 }
            else if containsSub (pyLower c1) "uid".data || containsSub (pyLower c1) "user".data then
              rows.map fun rw => { user_id := some rw.1, group_id := some rw.2 }
            else
              rows.map fun rw => { user_id := some rw.2, group_id := some rw.1 }
          else []
      | _ => []

/-- The inheritance discovery block (lines 295–327); all three orientation
branches in the source produce the same (parent, child) mapping, and the
degradation cases mirror the membership block. -/
def impliedRelation (disc : Option (List PyStr × List (Int × Int))) :
    List InheritRec :=
  match disc with
  | none => []
  | some (cols, rows) =>
      match cols with
      | c1 :: c2 :: _ =>
          if validSqlName c1 && validSqlName c2 then
            if containsSub (pyLower c2) "hid".data || containsSub (pyLower c2) "child".data
                || containsSub (pyLower c2) "implied".data then
              rows.map fun rw => { parent_id := some rw.1, child_id := some rw.2 }
            else if containsSub (pyLower c1) "parent".data then
              rows.map fun rw => { parent_id := some rw.1, child_id := some rw.2 }
            else
              rows.map fun rw => { parent_id := some rw.1, child_id := some rw.2 }
          else []
      | _ => []

/-- The payload assembly at the end of `_fetch_from_postgres` (lines
369–375): groups, users and access rights are carried regardless of how
the two relation discoveries fared. -/
def assemblePayload (groups : List GroupRecord) (users : List OdooUserRecord)
    (accessRights : List ARRecord)
    (mdisc idisc : Option (List PyStr × List (Int × Int))) : OdooPayload :=
  { groups := groups, users := users
    memberships := membershipRelation mdisc
    inheritance := impliedRelation idisc
    access_rights := accessRights }

/-- A committed table holding the given rows (what the store looks like
between runs, with nothing pending in any session). -/
def seedTable {α : Type} (xs : List α) : Table α :=
  { rows := (List.range xs.length).zip xs |>.map fun ia =>
      { rid := ia.1 + 1, durable := some ia.2, visible := some ia.2, current := ia.2 }
    nextId := xs.length + 1 }

/-- One standalone successful `_upsert_users(db, users)` call on a session
of its own: the loop followed by its `db.commit()`. -/
def upsertUsersRun (now : Nat) (t : Table UserF) (records : List AzureRecord) :
    Table UserF × AzureStats :=
  let o := azureUpsertLoop now t records
  (commitTable o.1, o.2)

example :
    membershipRelation (some (["a".data, "b".data], [(1, 2)]))
      = [{ user_id := some 2, group_id := some 1 }] := by decide
example : membershipRelation (some (["a".data], [(1, 2)])) = [] := by decide

example :
    (upsertUsersRun 1
      ((upsertUsersRun 0
        (seedTable [{ azure_id := some "a".data, email := some "e".data,
                      name := some "n".data }])
        [{ id := some "a".data }, { mail := some "e".data }]).1)
      [{ id := some "a".data }, { mail := some "e".data }]).2.created = 1 := by decide

example :
    ((durableRows (upsertUsersRun 0
      (seedTable [{ azure_id := some "a".data, department := some "D".data,
                    name := some "n".data }])
      [{ id := some "a".data }]).1).map UserF.department) = [none] := by decide

/-!
## String lemmas

`str.split()` ignores leading/trailing whitespace, lower-casing fixes
whitespace and commas, and comma removal fixes whitespace; together these
let the token set of a raw name be read off its `strip().lower()`
normalisation, which is what makes the comparison engine's equality
short-circuit consistent with its similarity threshold.
-/

theorem splitWsAux_wsOnly (s : PyStr) (acc : List Char)
    (hs : ∀ c ∈ s, isWs c = true) :
    splitWsAux s acc = if acc.isEmpty then [] else [acc.reverse] := by
  induction s generalizing acc with
  | nil => rfl
  | cons c rest ih =>
      have hc : isWs c = true := hs c (by simp)
      have hrest : ∀ x ∈ rest, isWs x = true := fun x hx => hs x (by simp [hx])
      by_cases hacc : acc.isEmpty
      · simp [splitWsAux, hc, hacc, ih [] hrest]
      · simp [splitWsAux, hc, hacc, ih [] hrest]

theorem splitWsAux_append_ws (l s : PyStr) (acc : List Char)
    (hs : ∀ c ∈ s, isWs c = true) :
    splitWsAux (l ++ s) acc = splitWsAux l acc := by
  induction l generalizing acc with
  | nil => simpa [splitWsAux] using splitWsAux_wsOnly s acc hs
  | cons c rest ih =>
      by_cases hc : isWs c
      · by_cases hacc : acc.isEmpty <;> simp [splitWsAux, hc, hacc, ih]
      · simp [splitWsAux, hc, ih]

theorem splitWsAux_ws_prefix (p l : PyStr) (hp : ∀ c ∈ p, isWs c = true) :
    splitWsAux (p ++ l) [] = splitWsAux l [] := by
  induction p with
  | nil => rfl
  | cons c rest ih =>
      have hc : isWs c = true := hp c (by simp)
      have hrest : ∀ x ∈ rest, isWs x = true := fun x hx => hp x (by simp [hx])
      simp [splitWsAux, hc, List.isEmpty, ih hrest]

theorem exists_strip_decomp (l : PyStr) :
    ∃ p s, (∀ c ∈ p, isWs c = true) ∧ (∀ c ∈ s, isWs c = true) ∧
      l = p ++ pyStrip l ++ s := by
  refine ⟨l.takeWhile isWs, ((l.dropWhile isWs).reverse.takeWhile isWs).reverse,
    fun c hc => List.mem_takeWhile_imp hc,
    fun c hc => List.mem_takeWhile_imp (List.mem_reverse.mp hc), ?_⟩
  have h1 : l.takeWhile isWs ++ l.dropWhile isWs = l :=
    List.takeWhile_append_dropWhile ..
  have h2 : ((l.dropWhile isWs).reverse.takeWhile isWs ++
      (l.dropWhile isWs).reverse.dropWhile isWs) = (l.dropWhile isWs).reverse :=
    List.takeWhile_append_dropWhile ..
  have h3 : l.dropWhile isWs =
      pyStrip l ++ ((l.dropWhile isWs).reverse.takeWhile isWs).reverse := by
    conv_lhs => rw [← List.reverse_reverse (l.dropWhile isWs), ← h2]
    rw [List.reverse_append]
    rfl
  calc l = l.takeWhile isWs ++ l.dropWhile isWs := h1.symm
    _ = l.takeWhile isWs ++ (pyStrip l ++ ((l.dropWhile isWs).reverse.takeWhile isWs).reverse) := by
        rw [← h3]
    _ = l.takeWhile isWs ++ pyStrip l ++ ((l.dropWhile isWs).reverse.takeWhile isWs).reverse := by
        rw [List.append_assoc]

theorem splitWs_strip (l : PyStr) : splitWs (pyStrip l) = splitWs l := by
  obtain ⟨p, s, hp, hs, hdecomp⟩ := exists_strip_decomp l
  unfold splitWs
  conv_rhs => rw [hdecomp]
  rw [List.append_assoc, splitWsAux_ws_prefix p _ hp, splitWsAux_append_ws _ s [] hs]

theorem lowerChar_ws (c : Char) (h : isWs c = true) : lowerChar c = c := by
  simp only [isWs, Bool.or_eq_true, decide_eq_true_eq] at h
  rcases h with ((((h | h) | h) | h) | h) | h <;> subst h <;> decide

theorem ws_lowerChar (c : Char) (h : isWs c = true) : isWs (lowerChar c) = true := by
  rw [lowerChar_ws c h]; exact h

theorem pyLower_ws (p : PyStr) (hp : ∀ c ∈ p, isWs c = true) : pyLower p = p := by
  induction p with
  | nil => rfl
  | cons c rest ih =>
      have hc := hp c (by simp)
      have hrest : ∀ x ∈ rest, isWs x = true := fun x hx => hp x (by simp [hx])
      simp [pyLower, lowerChar_ws c hc] at ih ⊢
      exact ih hrest

theorem removeCommas_ws (p : PyStr) (hp : ∀ c ∈ p, isWs c = true) :
    removeCommas p = p := by
  refine List.filter_eq_self.mpr fun c hc => ?_
  have h := hp c hc
  simp only [isWs, Bool.or_eq_true, decide_eq_true_eq] at h
  rcases h with ((((h | h) | h) | h) | h) | h <;> subst h <;> decide

theorem splitTokens_strip (n : PyStr) :
    splitWs (removeCommas (pyLower n)) = splitWs (removeCommas (pyLower (pyStrip n))) := by
  obtain ⟨p, s, hp, hs, hdecomp⟩ := exists_strip_decomp n
  conv_lhs => rw [hdecomp]
  rw [pyLower, List.map_append, List.map_append]
  rw [show (p.map lowerChar) = p from pyLower_ws p hp,
      show (s.map lowerChar) = s from pyLower_ws s hs]
  rw [removeCommas, List.filter_append, List.filter_append]
  rw [show p.filter (fun c => c ≠ ',') = p from removeCommas_ws p hp,
      show s.filter (fun c => c ≠ ',') = s from removeCommas_ws s hs]
  unfold splitWs
  rw [List.append_assoc, splitWsAux_ws_prefix p _ hp, splitWsAux_append_ws _ s [] hs]
  rfl

theorem nameTokens_eq_norm (n : PyStr) (hn : n ≠ []) :
    nameTokens n = (splitWs (removeCommas (normName (some n)))).dedup := by
  have hne : n.isEmpty = false := by
    cases n with
    | nil => exact absurd rfl hn
    | cons a l => rfl
  simp only [nameTokens, normName, hne, Bool.false_eq_true, if_false]
  rw [splitTokens_strip]

theorem nameTokens_ne_nil_imp (n : PyStr) (h : nameTokens n ≠ []) :
    n ≠ [] ∧ normName (some n) ≠ [] := by
  have hn : n ≠ [] := by
    intro he
    subst he
    exact h (by decide)
  refine ⟨hn, fun hnorm => ?_⟩
  have := nameTokens_eq_norm n hn
  rw [hnorm] at this
  exact h (by simpa using this)

theorem namesSimilar_of_tokens_eq (n1 n2 : PyStr)
    (heq : nameTokens n1 = nameTokens n2) (hn1 : n1 ≠ []) (hn2 : n2 ≠ []) :
    namesSimilar n1 n2 = true := by
  have he1 : n1.isEmpty = false := by cases n1 with | nil => exact absurd rfl hn1 | cons a l => rfl
  have he2 : n2.isEmpty = false := by cases n2 with | nil => exact absurd rfl hn2 | cons a l => rfl
  have hfilter : (nameTokens n1).filter (fun t => t ∈ nameTokens n1) = nameTokens n1 :=
    List.filter_eq_self.mpr fun a ha => decide_eq_true ha
  simp only [namesSimilar, he1, he2, Bool.or_self, Bool.false_eq_true, if_false,
    decide_eq_true_eq, ← heq, hfilter, Nat.min_self]
  omega

theorem namesSimilar_iff_ratio (n1 n2 : PyStr)
    (h1 : nameTokens n1 ≠ []) (h2 : nameTokens n2 ≠ [])
    (hn1 : n1 ≠ []) (hn2 : n2 ≠ []) :
    namesSimilar n1 n2 = true ↔ ¬ (tokenSimilarity n1 n2 < 7 / 10) := by
  have he1 : n1.isEmpty = false := by cases n1 with | nil => exact absurd rfl hn1 | cons a l => rfl
  have he2 : n2.isEmpty = false := by cases n2 with | nil => exact absurd rfl hn2 | cons a l => rfl
  have hm : 0 < Nat.min (nameTokens n1).length (nameTokens n2).length :=
    lt_min_iff.mpr ⟨List.length_pos.mpr h1, List.length_pos.mpr h2⟩
  simp only [namesSimilar, he1, he2, Bool.or_self, Bool.false_eq_true, if_false,
    decide_eq_true_eq]
  rw [tokenSimilarity]
  have hmq : (0:ℚ) < ((Nat.min (nameTokens n1).length (nameTokens n2).length : Nat) : ℚ) := by
    exact_mod_cast hm
  rw [div_lt_div_iff₀ hmq (by norm_num : (0:ℚ) < 10)]
  have hcast :
      ((((nameTokens n1).filter (fun t => t ∈ nameTokens n2)).length : ℚ) * 10 <
        7 * ((Nat.min (nameTokens n1).length (nameTokens n2).length : Nat) : ℚ)) ↔
      (((nameTokens n1).filter (fun t => t ∈ nameTokens n2)).length * 10 <
        7 * Nat.min (nameTokens n1).length (nameTokens n2).length) := by
    exact_mod_cast Iff.rfl
  rw [hcast]
  omega

/-- C6: for every pair of display names the comparison engine actually
compares (both normalise to something non-empty; non-emptiness of the
token sets keeps the claimed ratio `|∩| / min(|A|, |B|)` well defined), a
`name_mismatch` record is emitted iff the token-set similarity is below
0.7, and in particular "Jane Doe" vs "Doe, Jane" is not flagged while
"Jane Doe" vs "John Smith" is. -/
theorem comparison_mismatch_iff_low_similarity :
    (∀ n1 n2 : PyStr, nameTokens n1 ≠ [] → nameTokens n2 ≠ [] →
      (nameMismatchFlagged (some n1) (some n2) = true ↔
        tokenSimilarity n1 n2 < 7 / 10))
    ∧ nameMismatchFlagged (some "Jane Doe".data) (some "Doe, Jane".data) = false
    ∧ nameMismatchFlagged (some "Jane Doe".data) (some "John Smith".data) = true := by
  refine ⟨?_, by decide, by decide⟩
  intro n1 n2 h1 h2
  obtain ⟨hn1, hnorm1⟩ := nameTokens_ne_nil_imp n1 h1
  obtain ⟨hn2, hnorm2⟩ := nameTokens_ne_nil_imp n2 h2
  have he1 : n1.isEmpty = false := by cases n1 with | nil => exact absurd rfl hn1 | cons a l => rfl
  have he2 : n2.isEmpty = false := by cases n2 with | nil => exact absurd rfl hn2 | cons a l => rfl
  have hnorm1e : (normName (some n1)).isEmpty = false := by
    cases hval : normName (some n1) with
    | nil => exact absurd hval hnorm1
    | cons a l => rfl
  have hnorm2e : (normName (some n2)).isEmpty = false := by
    cases hval : normName (some n2) with
    | nil => exact absurd hval hnorm2
    | cons a l => rfl
  have hsim := namesSimilar_iff_ratio n1 n2 h1 h2 hn1 hn2
  constructor
  · intro hf
    simp only [nameMismatchFlagged, Option.getD_some, Bool.and_eq_true, Bool.not_eq_true,
      decide_eq_true_eq, hnorm1e, hnorm2e] at hf
    rcases hf with ⟨⟨_, _⟩, hnotsim⟩
    by_contra hnlt
    have := hsim.mpr hnlt
    simp [this] at hnotsim
  · intro hlt
    have hnotsim : namesSimilar n1 n2 = false := by
      rcases Bool.eq_false_or_eq_true (namesSimilar n1 n2) with h | h
      · exact absurd hlt (hsim.mp h)
      · exact h
    have hneq : normName (some n1) ≠ normName (some n2) := by
      intro heqn
      have htoks : nameTokens n1 = nameTokens n2 := by
        rw [nameTokens_eq_norm n1 hn1, nameTokens_eq_norm n2 hn2, heqn]
      exact absurd hlt (hsim.mp (namesSimilar_of_tokens_eq n1 n2 htoks hn1 hn2))
    simp only [nameMismatchFlagged, Option.getD_some, Bool.and_eq_true, Bool.not_eq_true,
      decide_eq_true_eq, hnorm1e, hnorm2e, hnotsim]
    exact ⟨⟨⟨rfl, rfl⟩, hneq⟩, rfl⟩

/-- Witness for C6 at the concrete pair "Jane Doe" / "John Smith". -/
theorem comparison_mismatch_iff_low_similarity_witness :
    nameTokens "Jane Doe".data ≠ [] ∧ nameTokens "John Smith".data ≠ [] ∧
      (nameMismatchFlagged (some "Jane Doe".data) (some "John Smith".data) = true ↔
        tokenSimilarity "Jane Doe".data "John Smith".data < 7 / 10) :=
  ⟨by decide, by decide,
    comparison_mismatch_iff_low_similarity.1 "Jane Doe".data "John Smith".data
      (by decide) (by decide)⟩

/-- C7: when a record's primary external id matches an existing row, the
resolver returns that row even when the secondary identifier (email)
matches a different existing row — identifiers are consulted strictly in
priority order, for the Azure user resolver and the Odoo user resolver
alike. -/
theorem resolver_prefers_primary_id :
    (∀ (t : Table UserF) (aid em nm : Option PyStr) (e1 e2 : Row UserF),
      pyTruthy aid = true →
      queryFirst t (fun u => u.azure_id == aid) = some e1 →
      queryFirst t (fun u => u.email == em) = some e2 →
      e2.rid ≠ e1.rid →
      resolveAzureUser t aid em nm = some e1)
    ∧ (∀ (t : Table UserF) (uid : Option Int) (em : Option PyStr) (e1 e2 : Row UserF),
      pyTruthyI uid = true →
      queryFirst t (fun u => u.odoo_user_id == uid) = some e1 →
      queryFirst t (fun u => u.email == em) = some e2 →
      e2.rid ≠ e1.rid →
      resolveOdooUser t uid em = some e1) := by
  constructor
  · intro t aid em nm e1 e2 htruthy hbyid _ _
    simp [resolveAzureUser, htruthy, hbyid]
  · intro t uid em e1 e2 htruthy hbyid _ _
    simp [resolveOdooUser, htruthy, hbyid]

/-- Witness for C7: a store holding E1 (azure id "a", email "x") and E2
(email "e"); a record carrying id "a" and email "e" resolves to E1. -/
theorem resolver_prefers_primary_id_witness :
    resolveAzureUser
      (seedTable [{ azure_id := some "a".data, email := some "x".data },
                  { email := some "e".data }])
      (some "a".data) (some "e".data) none
      = some { rid := 1
               durable := some { azure_id := some "a".data, email := some "x".data }
               visible := some { azure_id := some "a".data, email := some "x".data }
               current := { azure_id := some "a".data, email := some "x".data } } :=
  resolver_prefers_primary_id.1
    (seedTable [{ azure_id := some "a".data, email := some "x".data },
                { email := some "e".data }])
    (some "a".data) (some "e".data) none
    { rid := 1
      durable := some { azure_id := some "a".data, email := some "x".data }
      visible := some { azure_id := some "a".data, email := some "x".data }
      current := { azure_id := some "a".data, email := some "x".data } }
    { rid := 2
      durable := some { email := some "e".data }
      visible := some { email := some "e".data }
      current := { email := some "e".data } }
    (by decide) (by decide) (by decide) (by decide)

/-- C3 counterexample: with relation columns named "a"/"b" neither side is
recognisable, yet the membership relation is not returned empty — the code
falls back to the (group, user) default orientation and returns the rows. -/
theorem ambiguous_membership_columns_not_empty :
    membershipRelation (some (["a".data, "b".data], [(1, 2)]))
        = [{ user_id := some 2, group_id := some 1 }]
    ∧ membershipRelation (some (["a".data, "b".data], [(1, 2)])) ≠ [] :=
  ⟨by decide, by decide⟩

/-- C3 amended: fewer than two discovered columns, a column name failing
the alphanumeric validation, or an exception in the discovery block yield
an empty relation; *ambiguous* (unrecognised) column names instead fall
back to the default orientation with the rows intact; and the payload
carries groups, users and access rights regardless of either discovery
outcome. -/
theorem relation_discovery_degrades :
    (membershipRelation none = [] ∧ impliedRelation none = [])
    ∧ (∀ cols rows, cols.length < 2 →
        membershipRelation (some (cols, rows)) = [] ∧
        impliedRelation (some (cols, rows)) = [])
    ∧ (∀ c1 c2 rest rows, (validSqlName c1 && validSqlName c2) = false →
        membershipRelation (some (c1 :: c2 :: rest, rows)) = [] ∧
        impliedRelation (some (c1 :: c2 :: rest, rows)) = [])
    ∧ (∀ c1 c2 rest rows,
        (validSqlName c1 && validSqlName c2) = true →
        (containsSub (pyLower c1) "gid".data || containsSub (pyLower c1) "group".data) = false →
        (containsSub (pyLower c1) "uid".data || containsSub (pyLower c1) "user".data) = false →
        membershipRelation (some (c1 :: c2 :: rest, rows)) =
          rows.map fun rw => { user_id := some rw.2, group_id := some rw.1 })
    ∧ (∀ groups users ars mdisc idisc,
        (assemblePayload groups users ars mdisc idisc).groups = groups ∧
        (assemblePayload groups users ars mdisc idisc).users = users ∧
        (assemblePayload groups users ars mdisc idisc).access_rights = ars) := by
  refine ⟨⟨rfl, rfl⟩, ?_, ?_, ?_, ?_⟩
  · intro cols rows h
    rcases cols with _ | ⟨c1, _ | ⟨c2, rest⟩⟩
    · exact ⟨rfl, rfl⟩
    · exact ⟨rfl, rfl⟩
    · simp at h; omega
  · intro c1 c2 rest rows h
    exact ⟨by simp [membershipRelation, h], by simp [impliedRelation, h]⟩
  · intro c1 c2 rest rows hv hg hu
    simp [membershipRelation, hv, hg, hu]
  · intro groups users ars mdisc idisc
    exact ⟨rfl, rfl, rfl⟩

/-- Witness for C3's amended theorem: a single-column discovery yields an
empty membership relation. -/
theorem relation_discovery_degrades_witness :
    membershipRelation (some (["a".data], [(1, 2)])) = [] ∧
      impliedRelation (some (["a".data], [(1, 2)])) = [] :=
  relation_discovery_degrades.2.1 ["a".data] [(1, 2)] (by decide)

/-- C9 counterexample: a first sync run (no previous run) whose stats show
activity is narrated as "Sync processed records without net metric
changes.", not as the claimed initial-sync message. -/
def activityOnlyRun : RunF :=
  { sync_type := "azure_users", status := "completed"
    stats := some [("created", .int 1)] }

theorem first_run_with_activity_not_initial :
    (serializeSyncRun activityOnlyRun none).message
      = "Sync processed records without net metric changes."
    ∧ (serializeSyncRun activityOnlyRun none).message
      ≠ "Initial sync completed." :=
  ⟨by decide, by decide⟩

/-- C5 counterexample: a matched Azure user whose stored department is
populated and whose incoming record carries no department ends up with the
department nulled out by the merge. -/
def departmentSeed : Table UserF :=
  seedTable [{ azure_id := some "a".data, department := some "D".data
               name := some "n".data }]

theorem azure_update_nulls_populated_department :
    ((durableRows departmentSeed).map UserF.department = [some "D".data])
    ∧ ((durableRows (upsertUsersRun 0 departmentSeed
        [{ id := some "a".data }]).1).map UserF.department = [none]) :=
  ⟨by decide, by decide⟩

/-- C2: the overlay registers the user (azure id "aad-1", email
"jane@x.com"); after a wipe the Azure sync re-creates the canonical row,
but `_upsert_users` in `azure_sync.py` never consults the registry, so the
row the failed claim says must be hidden is re-created with
`is_hidden = false` even though the registry still matches it. -/
def janeFeed : AzureFeed :=
  { records := [{ id := some "aad-1".data, mail := some "jane@x.com".data
                  displayName := some "Jane Doe".data }] }

def janeRegistryFile : RegistryFile :=
  .valid { hidden_users := some [{ azure_id := some "aad-1".data
                                   email := some "jane@x.com".data }] }

theorem azure_resync_drops_hidden_flag :
    ((durableRows (syncAzureUsers 5 { users := {}, runs := {} } janeFeed).1.users).map
      UserF.is_hidden = [false])
    ∧ ((durableRows (syncAzureUsers 5 { users := {}, runs := {} } janeFeed).1.users).all
        (fun u => shouldHideUser (loadEntries janeRegistryFile) u) = true) :=
  ⟨by decide, by decide⟩

/-- C1: an Azure sync whose adapter stream fails after one record marks its
ledger row `failed` with the error message, but `complete_sync_run`'s
`db.commit()` also commits the record staged by the aborted loop: starting
from an empty store, the canonical store afterwards contains one committed
row instead of none. -/
def failingFeed : AzureFeed :=
  { records := [{ id := some "a1".data, displayName := some "Jane".data }]
    failure := some "connection reset" }

theorem azure_failed_sync_commits_partial_batch :
    ((syncAzureUsers 0 { users := {}, runs := {} } failingFeed).2
      = Except.error "connection reset")
    ∧ ((durableRows (syncAzureUsers 0 { users := {}, runs := {} } failingFeed).1.runs).map
        (fun r => (r.status, r.error_message)) = [("failed", some "connection reset")])
    ∧ ((durableRows (syncAzureUsers 0 { users := {}, runs := {} } failingFeed).1.users).map
        UserF.name = [some "Jane".data]) :=
  ⟨rfl, by decide, by decide⟩

/-- C9 amended: the serialized narrative reports (in priority order) a
missing/empty stats payload; else the top non-zero labelled deltas against
the previous run when any exist; else, when some activity counter of the
current run is non-zero, a processed-without-net-changes message (this
branch fires both with and without a previous run, which is what falsifies
the original claim); else "no changes" when a previous run exists and
"initial sync" otherwise.  The final conjunct characterises when the
labelled delta list is empty. -/
theorem change_narrative_branches :
    (∀ run prev, parseStats (some run) = none →
      (serializeSyncRun run prev).message = "No statistics recorded for this sync.")
    ∧ (∀ cur prev, cur ≠ [] → diffItems cur prev ≠ [] →
        (buildChangeSummary (some cur) (some prev)).diff = diffItems cur prev ∧
        ∃ rest, (buildChangeSummary (some cur) (some prev)).message
          = "Changes detected — " ++ rest)
    ∧ (∀ cur prev, cur ≠ [] → diffItems cur prev = [] → hasActivity cur = false →
        (buildChangeSummary (some cur) (some prev)).message
          = "No changes detected since previous sync.")
    ∧ (∀ cur, cur ≠ [] → hasActivity cur = false →
        (buildChangeSummary (some cur) none).message = "Initial sync completed.")
    ∧ (∀ cur prev, cur ≠ [] → diffItems cur prev = [] → hasActivity cur = true →
        (buildChangeSummary (some cur) (some prev)).message
          = "Sync processed records without net metric changes.")
    ∧ (∀ cur, cur ≠ [] → hasActivity cur = true →
        (buildChangeSummary (some cur) none).message
          = "Sync processed records without net metric changes.")
    ∧ (∀ cur prev, diffItems cur prev = [] ↔ ∀ kl ∈ STAT_LABELS, ∀ c p : Int,
        statGet cur kl.1 = some (.int c) → statGet prev kl.1 = some (.int p) →
        c - p = 0) := by
  have hne : ∀ (cur : StatsD), cur ≠ [] → cur.isEmpty = false := fun cur h => by
    cases cur with
    | nil => exact absurd rfl h
    | cons a l => rfl
  refine ⟨?_, ?_, ?_, ?_, ?_, ?_, ?_⟩
  · intro run prev h
    simp [serializeSyncRun, h, buildChangeSummary]
  · intro cur prev h hd
    have hdi : (diffItems cur prev).isEmpty = false := by
      cases hv : diffItems cur prev with
      | nil => exact absurd hv hd
      | cons a l => rfl
    refine ⟨?_, ?_⟩
    · simp [buildChangeSummary, hne cur h]
    · simp only [buildChangeSummary, hne cur h, Bool.false_eq_true, if_false, hdi,
        Bool.not_false, if_true]
      exact ⟨_, rfl⟩
  · intro cur prev h hd ha
    simp [buildChangeSummary, hne cur h, hd, ha]
  · intro cur h ha
    simp [buildChangeSummary, hne cur h, ha]
  · intro cur prev h hd ha
    simp [buildChangeSummary, hne cur h, hd, ha]
  · intro cur h ha
    simp [buildChangeSummary, hne cur h, ha]
  · intro cur prev
    rw [diffItems, List.filterMap_eq_nil_iff]
    constructor
    · intro h kl hkl c p hc hp
      have hcp := h kl hkl
      rw [hc, hp] at hcp
      by_cases hz : c - p = 0
      · exact hz
      · simp [hz] at hcp
    · intro h kl hkl
      cases hc : statGet cur kl.1 with
      | none => simp [hc]
      | some v1 =>
        cases v1 with
        | str s1 => simp [hc]
        | int c =>
          cases hp : statGet prev kl.1 with
          | none => simp [hc, hp]
          | some v2 =>
            cases v2 with
            | str s2 => simp [hc, hp]
            | int p => simp [hc, hp, h kl hkl c p hc hp]

/-- Witness for C9's amended theorem: a first run with no activity is
narrated as the initial sync. -/
theorem change_narrative_branches_witness :
    (buildChangeSummary (some [("processed", .int 3)]) none).message
      = "Initial sync completed." :=
  change_narrative_branches.2.2.2.1 [("processed", .int 3)] (by decide) (by decide)

theorem coerceEntry_hasId (e : RawEntry) (ne : HiddenEntry)
    (h : coerceEntry e = some ne) :
    (pyTruthy ne.azure_id || pyTruthy ne.email || pyTruthy ne.name) = true := by
  unfold coerceEntry at h
  by_cases hg : (pyTruthy (normalizeToken e.azure_id) || pyTruthy (normalizeToken e.email)
      || pyTruthy (normalizeName e.name)) = true
  · rw [if_neg (by simp [hg])] at h
    cases h
    simpa using hg
  · rw [if_pos (by simp [Bool.not_eq_true] at hg ⊢; exact hg)] at h
    cases h

theorem normalizeEntries_sound (raw : List RawEntry) :
    ∀ seen, (∀ e ∈ normalizeEntries raw seen,
        (pyTruthy e.azure_id || pyTruthy e.email || pyTruthy e.name) = true
        ∧ entryKey e ∉ seen)
      ∧ (normalizeEntries raw seen).Pairwise (fun a b => entryKey a ≠ entryKey b) := by
  induction raw with
  | nil => intro seen; exact ⟨fun e he => absurd he (by simp [normalizeEntries]), by
      simp [normalizeEntries]⟩
  | cons r rest ih =>
      intro seen
      unfold normalizeEntries
      cases hc : coerceEntry r with
      | none => exact ih seen
      | some ne =>
          dsimp only
          by_cases hseen : entryKey ne ∈ seen
          · rw [if_pos hseen]
            exact ih seen
          · rw [if_neg hseen]
            refine ⟨?_, ?_⟩
            · intro e he
              rcases List.mem_cons.mp he with he | he
              · subst he
                exact ⟨coerceEntry_hasId r e hc, hseen⟩
              · have := (ih (entryKey ne :: seen)).1 e he
                exact ⟨this.1, fun hmem => this.2 (List.mem_cons_of_mem _ hmem)⟩
            · refine List.pairwise_cons.mpr ⟨?_, (ih (entryKey ne :: seen)).2⟩
              intro e he heq
              have := (ih (entryKey ne :: seen)).1 e he
              exact this.2 (heq ▸ List.mem_cons_self _ _)

/-- C10: a missing, unreadable or syntactically invalid registry file
loads as the empty entry list (no exception escapes `_ensure_loaded`), all
registry operations then behave exactly as on an empty registry, and a
valid payload is normalised: entries whose identifiers all normalise to
empty are dropped and duplicate identifier keys are collapsed. -/
theorem registry_load_resilience :
    (loadEntries .missing = [] ∧ loadEntries .unreadable = []
      ∧ loadEntries .invalidJson = [])
    ∧ (∀ st : RegistryFile,
        (st = .missing ∨ st = .unreadable ∨ st = .invalidJson) →
        (∀ u, shouldHideUser (loadEntries st) u = false)
        ∧ (∀ u, registerHiddenUser (loadEntries st) u = registerHiddenUser [] u)
        ∧ (∀ u, removeHiddenUser (loadEntries st) u = (false, []))
        ∧ (∀ hus, syncFromDatabase (loadEntries st) hus = syncFromDatabase [] hus))
    ∧ (∀ p, ∀ e ∈ loadEntries (.valid p),
        (pyTruthy e.azure_id || pyTruthy e.email || pyTruthy e.name) = true)
    ∧ (∀ p, (loadEntries (.valid p)).Pairwise (fun a b => entryKey a ≠ entryKey b)) := by
  have hload : ∀ st : RegistryFile,
      (st = .missing ∨ st = .unreadable ∨ st = .invalidJson) → loadEntries st = [] := by
    intro st h
    rcases h with h | h | h <;> subst h <;> rfl
  refine ⟨⟨rfl, rfl, rfl⟩, ?_, ?_, ?_⟩
  · intro st h
    rw [hload st h]
    refine ⟨?_, fun u => rfl, ?_, fun hus => rfl⟩
    · intro u
      unfold shouldHideUser
      dsimp only
      split <;> rfl
    · intro u
      unfold removeHiddenUser
      dsimp only
      split <;> rfl
  · intro p e he
    exact ((normalizeEntries_sound _ []).1 e he).1
  · intro p
    exact (normalizeEntries_sound _ []).2

/-- Witness for C10 on a concrete payload: an invalid-JSON file hides
nobody, and a payload with an all-empty entry and a duplicate loads as one
entry. -/
theorem registry_load_resilience_witness :
    shouldHideUser (loadEntries .invalidJson)
      { name := some "Jane Doe".data, email := some "jane@x.com".data } = false :=
  (registry_load_resilience.2.1 .invalidJson (Or.inr (Or.inr rfl))).1
    { name := some "Jane Doe".data, email := some "jane@x.com".data }

theorem pyOr_not_truthy_left (a b : Option PyStr)
    (h : pyTruthy (pyOr a b) = false) : pyTruthy a = false := by
  by_cases ha : pyTruthy a
  · unfold pyOr at h
    rw [if_pos ha] at h
    exact absurd h (by simp [ha])
  · simpa using ha

theorem applicationName_of_not_truthy (r : GroupRecord)
    (h : pyTruthy (applicationName r) = false) : applicationName r = none := by
  unfold applicationName at h ⊢
  cases hv : pyOr r.application (pyOr r.module_name r.category_name) with
  | none => rfl
  | some s =>
      rw [hv] at h
      dsimp only at h ⊢
      by_cases hs : (pyStrip s).isEmpty
      · rw [if_pos hs]
      · rw [if_neg hs] at h
        simp only [pyTruthy, Bool.not_eq_eq_eq_not, Bool.not_false] at h
        exact absurd h hs

theorem applyHiddenFlag_email (reg : List HiddenEntry) (u : UserF) :
    (applyHiddenFlag reg u).email = u.email := by
  unfold applyHiddenFlag
  split <;> rfl

theorem groupUpdateTrail_frame (g : GroupF) (r : GroupRecord) :
    (groupUpdateTrail g r).module = g.module
    ∧ (groupUpdateTrail g r).category = g.category
    ∧ (groupUpdateTrail g r).access_level = g.access_level
    ∧ (groupUpdateTrail g r).hierarchy_level = g.hierarchy_level
    ∧ (groupUpdateTrail g r).purpose = g.purpose
    ∧ (groupUpdateTrail g r).user_access = g.user_access :=
  ⟨rfl, rfl, rfl, rfl, rfl, rfl⟩

theorem groupUpdateUserAccess_frame (g : GroupF) (r : GroupRecord) :
    (groupUpdateUserAccess g r).module = g.module
    ∧ (groupUpdateUserAccess g r).category = g.category
    ∧ (groupUpdateUserAccess g r).access_level = g.access_level
    ∧ (groupUpdateUserAccess g r).hierarchy_level = g.hierarchy_level
    ∧ (groupUpdateUserAccess g r).purpose = g.purpose := by
  unfold groupUpdateUserAccess
  split <;> exact ⟨rfl, rfl, rfl, rfl, rfl⟩

theorem groupUpdateDocs_frame (g : GroupF) (r : GroupRecord) :
    (groupUpdateDocs g r).module = g.module
    ∧ (groupUpdateDocs g r).category = g.category
    ∧ (groupUpdateDocs g r).access_level = g.access_level
    ∧ (groupUpdateDocs g r).hierarchy_level = g.hierarchy_level
    ∧ (groupUpdateDocs g r).purpose = g.purpose
    ∧ (groupUpdateDocs g r).user_access = g.user_access :=
  ⟨rfl, rfl, rfl, rfl, rfl, rfl⟩

theorem groupUpdatePurpose_frame (g : GroupF) (r : GroupRecord) :
    (groupUpdatePurpose g r).module = g.module
    ∧ (groupUpdatePurpose g r).category = g.category
    ∧ (groupUpdatePurpose g r).access_level = g.access_level
    ∧ (groupUpdatePurpose g r).hierarchy_level = g.hierarchy_level
    ∧ (groupUpdatePurpose g r).user_access = g.user_access := by
  unfold groupUpdatePurpose
  split <;> exact ⟨rfl, rfl, rfl, rfl, rfl⟩

theorem groupUpdateHierarchy_frame (g : GroupF) (hlv : Option Int) :
    (groupUpdateHierarchy g hlv).module = g.module
    ∧ (groupUpdateHierarchy g hlv).category = g.category
    ∧ (groupUpdateHierarchy g hlv).access_level = g.access_level
    ∧ (groupUpdateHierarchy g hlv).purpose = g.purpose
    ∧ (groupUpdateHierarchy g hlv).user_access = g.user_access := by
  unfold groupUpdateHierarchy
  split <;> exact ⟨rfl, rfl, rfl, rfl, rfl⟩

theorem groupUpdateAccess_frame (g : GroupF) (alv : Option PyStr) :
    (groupUpdateAccess g alv).module = g.module
    ∧ (groupUpdateAccess g alv).category = g.category
    ∧ (groupUpdateAccess g alv).hierarchy_level = g.hierarchy_level
    ∧ (groupUpdateAccess g alv).purpose = g.purpose
    ∧ (groupUpdateAccess g alv).user_access = g.user_access := by
  unfold groupUpdateAccess
  split <;> exact ⟨rfl, rfl, rfl, rfl, rfl⟩

theorem groupUpdateModule_frame (g : GroupF) (app mv : Option PyStr) :
    (groupUpdateModule g app mv).access_level = g.access_level
    ∧ (groupUpdateModule g app mv).hierarchy_level = g.hierarchy_level
    ∧ (groupUpdateModule g app mv).purpose = g.purpose
    ∧ (groupUpdateModule g app mv).user_access = g.user_access := by
  unfold groupUpdateModule
  split
  · exact ⟨rfl, rfl, rfl, rfl⟩
  · split <;> exact ⟨rfl, rfl, rfl, rfl⟩

theorem groupUpdateModule_keeps (g : GroupF) (app mv : Option PyStr)
    (happ : app = none) (hmv : pyTruthy mv = false) :
    (groupUpdateModule g app mv).module = g.module
    ∧ (groupUpdateModule g app mv).category = g.category := by
  subst happ
  unfold groupUpdateModule
  simp [hmv]

theorem groupUpdateAccess_keeps (g : GroupF) (alv : Option PyStr)
    (h : pyTruthy alv = false) : (groupUpdateAccess g alv).access_level = g.access_level := by
  unfold groupUpdateAccess
  simp [h]

theorem groupUpdateHierarchy_keeps (g : GroupF) (hlv : Option Int)
    (h : hlv = none) : (groupUpdateHierarchy g hlv).hierarchy_level = g.hierarchy_level := by
  subst h
  unfold groupUpdateHierarchy
  simp

theorem groupUpdatePurpose_keeps (g : GroupF) (r : GroupRecord)
    (h : r.purpose = none) : (groupUpdatePurpose g r).purpose = g.purpose := by
  unfold groupUpdatePurpose
  simp [h]

theorem groupUpdateUserAccess_keeps (g : GroupF) (r : GroupRecord)
    (h : r.user_access = none) :
    (groupUpdateUserAccess g r).user_access = g.user_access := by
  unfold groupUpdateUserAccess
  simp [h]

/-- C5 amended: the never-null-out rule holds exactly for the opportunistic
fields — an Odoo group's module/category (when no application name or
parsed module is provided), access level, hierarchy level, purpose and
user-access note, and an Odoo user's email — while the Azure merger and
the remaining Odoo group fields (documentation texts, audit trail,
odoo_id) overwrite stored values unconditionally, empty or not. -/
theorem merge_preserves_selected_fields :
    ∀ (g : GroupF) (r : GroupRecord) (now : Nat) (env : PyStr),
      (pyTruthy (groupDerivedValues r).1 = false →
        (applyGroupRecord g r now env).module = g.module
        ∧ (applyGroupRecord g r now env).category = g.category)
      ∧ (pyTruthy (groupDerivedValues r).2.1 = false →
        (applyGroupRecord g r now env).access_level = g.access_level)
      ∧ ((groupDerivedValues r).2.2 = none →
        (applyGroupRecord g r now env).hierarchy_level = g.hierarchy_level)
      ∧ (r.purpose = none → (applyGroupRecord g r now env).purpose = g.purpose)
      ∧ (r.user_access = none →
        (applyGroupRecord g r now env).user_access = g.user_access)
      ∧ (∀ (reg : List HiddenEntry) (uid : Option Int) (em : Option PyStr) (u : UserF),
        pyTruthy em = false → (applyOdooUserRecord reg env uid em u).email = u.email) := by
  intro g r now env
  refine ⟨?_, ?_, ?_, ?_, ?_, ?_⟩
  · intro h
    have happ : applicationName r = none :=
      applicationName_of_not_truthy r
        (pyOr_not_truthy_left (applicationName r) (extractModuleAccess r.name).1 h)
    unfold applyGroupRecord
    constructor
    · rw [(groupUpdateTrail_frame _ _).1, (groupUpdateUserAccess_frame _ _).1,
        (groupUpdateDocs_frame _ _).1, (groupUpdatePurpose_frame _ _).1,
        (groupUpdateHierarchy_frame _ _).1, (groupUpdateAccess_frame _ _).1,
        (groupUpdateModule_keeps _ _ _ happ h).1]
      rfl
    · rw [(groupUpdateTrail_frame _ _).2.1, (groupUpdateUserAccess_frame _ _).2.1,
        (groupUpdateDocs_frame _ _).2.1, (groupUpdatePurpose_frame _ _).2.1,
        (groupUpdateHierarchy_frame _ _).2.1, (groupUpdateAccess_frame _ _).2.1,
        (groupUpdateModule_keeps _ _ _ happ h).2]
      rfl
  · intro h
    unfold applyGroupRecord
    rw [(groupUpdateTrail_frame _ _).2.2.1, (groupUpdateUserAccess_frame _ _).2.2.1,
      (groupUpdateDocs_frame _ _).2.2.1, (groupUpdatePurpose_frame _ _).2.2.1,
      (groupUpdateHierarchy_frame _ _).2.2.1, groupUpdateAccess_keeps _ _ h,
      (groupUpdateModule_frame _ _ _).1]
    rfl
  · intro h
    unfold applyGroupRecord
    rw [(groupUpdateTrail_frame _ _).2.2.2.1, (groupUpdateUserAccess_frame _ _).2.2.2.1,
      (groupUpdateDocs_frame _ _).2.2.2.1, (groupUpdatePurpose_frame _ _).2.2.2.1,
      groupUpdateHierarchy_keeps _ _ h, (groupUpdateAccess_frame _ _).2.2.1,
      (groupUpdateModule_frame _ _ _).2.1]
    rfl
  · intro h
    unfold applyGroupRecord
    rw [(groupUpdateTrail_frame _ _).2.2.2.2.1, (groupUpdateUserAccess_frame _ _).2.2.2.2,
      (groupUpdateDocs_frame _ _).2.2.2.2.1, groupUpdatePurpose_keeps _ _ h,
      (groupUpdateHierarchy_frame _ _).2.2.2.1, (groupUpdateAccess_frame _ _).2.2.2.1,
      (groupUpdateModule_frame _ _ _).2.2.1]
    rfl
  · intro h
    unfold applyGroupRecord
    rw [(groupUpdateTrail_frame _ _).2.2.2.2.2, groupUpdateUserAccess_keeps _ _ h,
      (groupUpdateDocs_frame _ _).2.2.2.2.2, (groupUpdatePurpose_frame _ _).2.2.2.2,
      (groupUpdateHierarchy_frame _ _).2.2.2.2, (groupUpdateAccess_frame _ _).2.2.2.2,
      (groupUpdateModule_frame _ _ _).2.2.2]
    rfl
  · intro reg uid em u h
    unfold applyOdooUserRecord
    rw [applyHiddenFlag_email]
    simp [pyOr, h]

/-- Witness for C5's amended theorem: a populated access level survives a
record that carries none. -/
theorem merge_preserves_selected_fields_witness :
    (applyGroupRecord { name := "G".data, access_level := some "Admin".data }
        { name := some "G".data } 0 "Production".data).access_level
      = ({ name := "G".data, access_level := some "Admin".data } : GroupF).access_level :=
  (merge_preserves_selected_fields
    { name := "G".data, access_level := some "Admin".data }
    { name := some "G".data } 0 "Production".data).2.1 (by decide)

theorem foldl_inv {β σ : Type} (f : σ → β → σ) (inv : σ → Prop) (l : List β)
    (s : σ) (hs : inv s) (hstep : ∀ s b, inv s → inv (f s b)) :
    inv (l.foldl f s) := by
  induction l generalizing s with
  | nil => exact hs
  | cons b rest ih => exact ih (f s b) (hstep s b hs)

theorem odooRollback_memberships (st : OdooState) :
    (odooRollback st).memberships = st.memberships := rfl

theorem odooFlush_memberships (st : OdooState) :
    (odooFlush st).memberships = st.memberships := rfl

theorem odooGroupStep_memberships (now : Nat) (env : PyStr)
    (acc : OdooState × OdooCounts × RidDict) (r : GroupRecord) :
    (odooGroupStep now env acc r).1.memberships = acc.1.memberships := by
  unfold odooGroupStep
  dsimp only
  repeat' split
  all_goals rfl

theorem odooUserStep_memberships (env : PyStr) (reg : List HiddenEntry)
    (acc : OdooState × OdooCounts × RidDict) (r : OdooUserRecord) :
    (odooUserStep env reg acc r).1.memberships = acc.1.memberships := by
  unfold odooUserStep
  dsimp only
  repeat' split
  all_goals rfl

theorem odooMembershipStep_memberships (glook ulook : RidDict) (st : OdooState)
    (m : MembershipRec) :
    (odooMembershipStep glook ulook st m).memberships = st.memberships := by
  unfold odooMembershipStep
  repeat' split
  all_goals rfl

theorem odooInheritStep_memberships (glook : RidDict) (st : OdooState)
    (rel : InheritRec) :
    (odooInheritStep glook st rel).memberships = st.memberships := by
  unfold odooInheritStep
  repeat' split
  all_goals rfl

theorem odooARStep_memberships (now : Nat) (glook : RidDict)
    (acc : OdooState × OdooCounts) (ar : ARRecord) :
    (odooARStep now glook acc ar).1.memberships = acc.1.memberships := by
  unfold odooARStep
  dsimp only
  repeat' split
  all_goals rfl

theorem odooFinalizeGroup_memberships (today : Int) (st : OdooState) (rid : Nat) :
    (odooFinalizeGroup today st rid).memberships = st.memberships := rfl

/-- The pre-commit phases of `_upsert_groups` never touch committed
membership rows. -/
theorem upsertGroupsStage_memberships (now : Nat) (today : Int) (env : PyStr)
    (reg : List HiddenEntry) (st : OdooState) (p : OdooPayload) :
    (upsertGroupsStage now today env reg st p).1.memberships = st.memberships := by
  unfold upsertGroupsStage
  dsimp only
  refine foldl_inv _ (fun a => a.memberships = st.memberships) _ _ ?_
    (fun a b ha => (odooFinalizeGroup_memberships today a b).trans ha)
  refine foldl_inv _ (fun a => a.1.memberships = st.memberships) _ _ ?_
    (fun a b ha => (odooARStep_memberships _ _ a b).trans ha)
  refine foldl_inv _ (fun a => a.memberships = st.memberships) _ _ ?_
    (fun a b ha => (odooInheritStep_memberships _ a b).trans ha)
  refine foldl_inv _ (fun a => a.memberships = st.memberships) _ _ ?_
    (fun a b ha => (odooMembershipStep_memberships _ _ a b).trans ha)
  refine foldl_inv _ (fun a => a.1.memberships = st.memberships) _ _ ?_
    (fun a b ha => (odooUserStep_memberships env reg a b).trans ha)
  exact foldl_inv (odooGroupStep now env)
    (fun a => a.1.memberships = st.memberships) p.groups (st, {}, []) rfl
    (fun a b ha => (odooGroupStep_memberships now env a b).trans ha)

/-- Payload of the first scenario sync: group G1, user U, edge (U, G1). -/
def scenarioP1 : OdooPayload :=
  { groups := [{ id := some 1, name := some "G1".data }]
    users := [{ id := some 10, login := some "u@x.com".data }]
    memberships := [{ user_id := some 10, group_id := some 1 }] }

/-- Payload of the second scenario sync: group G2, user U, edge (U, G2)
only — edge (U, G1) is absent from this payload. -/
def scenarioP2 : OdooPayload :=
  { groups := [{ id := some 2, name := some "G2".data }]
    users := [{ id := some 10, login := some "u@x.com".data }]
    memberships := [{ user_id := some 10, group_id := some 2 }] }

/-- C8: membership edges are additive — every committed edge survives any
merge (whatever its payload), and concretely, after a sync adds (U, G1)
and a second sync's payload contains only (U, G2), both edges are present
((group rid, user rid) pairs: G1 is group row 1, G2 group row 2, U user
row 1). -/
theorem memberships_additive :
    (∀ (now : Nat) (today : Int) (env : PyStr) (reg : List HiddenEntry)
        (st : OdooState) (p : OdooPayload) (e : Nat × Nat),
      e ∈ st.memberships → e ∈ (upsertGroups now today env reg st p).1.memberships)
    ∧ ((syncOdooPostgres 1 0 "Production".data []
          ((syncOdooPostgres 0 0 "Production".data [] {} { payload := scenarioP1 }).1)
          { payload := scenarioP2 }).1).memberships = [(1, 1), (2, 1)] := by
  constructor
  · intro now today env reg st p e he
    unfold upsertGroups
    dsimp only
    exact List.mem_append_left _
      ((upsertGroupsStage_memberships now today env reg st p).symm ▸ he)
  · decide

/-- Witness for C8's universal conjunct: a pre-existing edge (1, 1)
survives a merge with an empty payload. -/
theorem memberships_additive_witness :
    (1, 1) ∈ (upsertGroups 0 0 "Production".data []
      { memberships := [(1, 1)] } {}).1.memberships :=
  memberships_additive.1 0 0 "Production".data [] { memberships := [(1, 1)] } {}
    (1, 1) (by decide)

/-!
## Idempotence of the Azure merger

`_upsert_users` never flushes, so all lookups inside one run see exactly
the pre-run committed table.  A run's table evolves from the committed
table only by in-place object mutations (which change neither row ids nor
flushed state) and by pending inserts (invisible to lookups); the
`tableShadow` relation captures this and makes lookups run-invariant.
-/

/-- Rows of the pre-run table and of the evolving session table agree on
row id and on what queries can see. -/
def rowShadow (r0 rn : Row UserF) : Prop :=
  rn.rid = r0.rid ∧ rn.visible = r0.visible

/-- The session table is the pre-run table with mutated objects plus
never-flushed inserts. -/
def tableShadow (t0 t : Table UserF) : Prop :=
  ∃ pre post, t.rows = pre ++ post ∧ List.Forall₂ rowShadow t0.rows pre ∧
    ∀ r ∈ post, r.visible = none

/-- Row ids are unique and bounded by the id counter. -/
def TableWF (t : Table UserF) : Prop :=
  (∀ r ∈ t.rows, r.rid < t.nextId) ∧ t.rows.Pairwise (fun a b => a.rid ≠ b.rid)

/-- The row id the run-resolver picks for a record against a fixed table. -/
def azureResolutionRid (t : Table UserF) (r : AzureRecord) : Option Nat :=
  (resolveAzureUser t r.id (azureRecEmail r) (azureRecName r)).map (fun row => row.rid)

theorem tableShadow_refl (t : Table UserF) : tableShadow t t :=
  ⟨t.rows, [], by simp, List.forall₂_same.mpr (fun x _ => ⟨rfl, rfl⟩), by simp⟩

theorem tableShadow_updateRow {t0 t : Table UserF} (h : tableShadow t0 t)
    (rid : Nat) (f : UserF → UserF) : tableShadow t0 (updateRow t rid f) := by
  obtain ⟨pre, post, hrows, hf2, hpost⟩ := h
  refine ⟨pre.map (fun r => if r.rid = rid then { r with current := f r.current } else r),
    post.map (fun r => if r.rid = rid then { r with current := f r.current } else r),
    ?_, ?_, ?_⟩
  · simp [updateRow, hrows]
  · rw [List.forall₂_map_right_iff]
    refine hf2.imp fun a b hab => ?_
    constructor
    · split <;> exact hab.1
    · split <;> exact hab.2
  · intro r hr
    obtain ⟨r0, hr0, hre⟩ := List.mem_map.mp hr
    have := hpost r0 hr0
    subst hre
    split <;> exact this

theorem tableShadow_insertRow {t0 t : Table UserF} (h : tableShadow t0 t)
    (a : UserF) : tableShadow t0 (insertRow t a).1 := by
  obtain ⟨pre, post, hrows, hf2, hpost⟩ := h
  refine ⟨pre, post ++ [{ rid := t.nextId, durable := none, visible := none, current := a }],
    ?_, hf2, ?_⟩
  · simp [insertRow, hrows]
  · intro r hr
    rcases List.mem_append.mp hr with hr | hr
    · exact hpost r hr
    · simp at hr
      rw [hr]

theorem queryFirst_shadow {t0 t : Table UserF} (h : tableShadow t0 t)
    (p : UserF → Bool) :
    (queryFirst t p).map (fun r => r.rid) = (queryFirst t0 p).map (fun r => r.rid) := by
  obtain ⟨pre, post, hrows, hf2, hpost⟩ := h
  unfold queryFirst
  rw [hrows, List.find?_append]
  have hpostnone : post.find? (rowMatch p) = none := by
    rw [List.find?_eq_none]
    intro r hr
    simp [rowMatch, hpost r hr]
  rw [hpostnone, Option.or_none]
  clear hrows hpostnone hpost
  generalize t0.rows = l0 at hf2 ⊢
  induction hf2 with
  | nil => rfl
  | cons hab htail ih =>
      rename_i a b l1 l2
      have hvis : b.visible = a.visible := hab.2
      cases hm : rowMatch p a with
      | true =>
          rw [List.find?_cons_of_pos _ (by simpa [rowMatch, hvis] using hm),
            List.find?_cons_of_pos _ hm]
          simp [hab.1]
      | false =>
          rw [List.find?_cons_of_neg _ (by simp [rowMatch, hvis] at hm ⊢; exact hm),
            List.find?_cons_of_neg _ (by simp [hm])]
          exact ih

/-- The table component of the loop, stats dropped. -/
def azureLoopT (now : Nat) : Table UserF → List AzureRecord → Table UserF
  | t, [] => t
  | t, r :: rest => azureLoopT now (azureProcessRecord now t r).1 rest

theorem azureLoop_table (now : Nat) (rs : List AzureRecord) :
    ∀ (t : Table UserF) (s : AzureStats),
      (rs.foldl (azureFoldStep now) (t, s)).1 = azureLoopT now t rs := by
  induction rs with
  | nil => intro t s; rfl
  | cons q rest ih =>
      intro t s
      rw [List.foldl_cons]
      exact ih (azureProcessRecord now t q).1 _

theorem map_rid_eq_elim {x y : Option (Row UserF)}
    (h : x.map (fun r => r.rid) = y.map (fun r => r.rid)) :
    (x = none ∧ y = none) ∨ ∃ rx ry, x = some rx ∧ y = some ry ∧ rx.rid = ry.rid := by
  cases x with
  | none =>
      cases y with
      | none => exact Or.inl ⟨rfl, rfl⟩
      | some ry => simp at h
  | some rx =>
      cases y with
      | none => simp at h
      | some ry => exact Or.inr ⟨rx, ry, rfl, rfl, by simpa using h⟩

theorem resolveAzureUser_eq_or (t : Table UserF) (aid em nm : Option PyStr) :
    resolveAzureUser t aid em nm
      = ((if pyTruthy aid then queryFirst t (fun u => u.azure_id == aid) else none).or
        ((if pyTruthy em then queryFirst t (fun u => u.email == em) else none).or
          (if pyTruthy nm then queryFirst t (fun u => u.name == nm) else none))) := by
  unfold resolveAzureUser
  cases hx : (if pyTruthy aid then queryFirst t (fun u => u.azure_id == aid) else none) with
  | some r => rfl
  | none =>
      cases hy : (if pyTruthy em then queryFirst t (fun u => u.email == em) else none) with
      | some r => rfl
      | none => rfl

theorem or_map_rid {x1 y1 x2 y2 : Option (Row UserF)}
    (h1 : x1.map (fun r => r.rid) = y1.map (fun r => r.rid))
    (h2 : x2.map (fun r => r.rid) = y2.map (fun r => r.rid)) :
    (x1.or x2).map (fun r => r.rid) = (y1.or y2).map (fun r => r.rid) := by
  rcases map_rid_eq_elim h1 with ⟨hx, hy⟩ | ⟨rx, ry, hx, hy, hr⟩
  · rw [hx, hy]
    simpa using h2
  · rw [hx, hy]
    simpa using hr

theorem ite_map_rid (c : Prop) [Decidable c] {x y : Option (Row UserF)}
    (h : x.map (fun r => r.rid) = y.map (fun r => r.rid)) :
    ((if c then x else none).map (fun r => r.rid))
      = ((if c then y else none).map (fun r => r.rid)) := by
  split <;> simp [h]

theorem resolveAzureUser_shadow {t0 t : Table UserF} (h : tableShadow t0 t)
    (aid em nm : Option PyStr) :
    (resolveAzureUser t aid em nm).map (fun r => r.rid)
      = (resolveAzureUser t0 aid em nm).map (fun r => r.rid) := by
  rw [resolveAzureUser_eq_or, resolveAzureUser_eq_or]
  exact or_map_rid (ite_map_rid _ (queryFirst_shadow h _))
    (or_map_rid (ite_map_rid _ (queryFirst_shadow h _))
      (ite_map_rid _ (queryFirst_shadow h _)))

theorem azureResolutionRid_shadow {t0 t : Table UserF} (h : tableShadow t0 t)
    (r : AzureRecord) : azureResolutionRid t r = azureResolutionRid t0 r := by
  unfold azureResolutionRid
  exact resolveAzureUser_shadow h _ _ _

theorem TableWF_updateRow {t : Table UserF} (h : TableWF t) (rid : Nat)
    (f : UserF → UserF) : TableWF (updateRow t rid f) := by
  obtain ⟨hbound, hpair⟩ := h
  constructor
  · intro r hr
    obtain ⟨r0, hr0, hre⟩ := List.mem_map.mp hr
    have := hbound r0 hr0
    subst hre
    split <;> exact this
  · rw [updateRow]
    dsimp only
    rw [List.pairwise_map]
    refine hpair.imp ?_
    intro a b hab
    split <;> split <;> exact hab

theorem TableWF_insertRow {t : Table UserF} (h : TableWF t) (a : UserF) :
    TableWF (insertRow t a).1 := by
  obtain ⟨hbound, hpair⟩ := h
  constructor
  · intro r hr
    rcases List.mem_append.mp hr with hr | hr
    · exact Nat.lt_succ_of_lt (hbound r hr)
    · simp at hr
      rw [hr]
      exact Nat.lt_succ_self _
  · rw [insertRow]
    dsimp only
    rw [List.pairwise_append]
    refine ⟨hpair, List.pairwise_singleton _ _, ?_⟩
    intro r hr r2 hr2
    simp at hr2
    rw [hr2]
    exact Nat.ne_of_lt (hbound r hr)

theorem mem_updateRow_of_ne {t : Table UserF} {rid : Nat} {f : UserF → UserF}
    {row : Row UserF} (hrow : row ∈ t.rows) (hne : row.rid ≠ rid) :
    row ∈ (updateRow t rid f).rows := by
  rw [updateRow]
  dsimp only
  refine List.mem_map.mpr ⟨row, hrow, ?_⟩
  rw [if_neg hne]

theorem mem_updateRow_self {t : Table UserF} {rid : Nat} {f : UserF → UserF}
    {row : Row UserF} (hrow : row ∈ t.rows) (heq : row.rid = rid) :
    { row with current := f row.current } ∈ (updateRow t rid f).rows := by
  rw [updateRow]
  dsimp only
  refine List.mem_map.mpr ⟨row, hrow, ?_⟩
  rw [if_pos heq]

theorem updateRow_length (t : Table UserF) (rid : Nat) (f : UserF → UserF) :
    (updateRow t rid f).rows.length = t.rows.length := by
  simp [updateRow]

theorem updateRow_nextId (t : Table UserF) (rid : Nat) (f : UserF → UserF) :
    (updateRow t rid f).nextId = t.nextId := rfl

theorem queryFirst_mem {t : Table UserF} {p : UserF → Bool} {row : Row UserF}
    (h : queryFirst t p = some row) : row ∈ t.rows :=
  List.mem_of_find?_eq_some h

theorem resolveAzureUser_mem {t : Table UserF} {aid em nm : Option PyStr}
    {row : Row UserF} (h : resolveAzureUser t aid em nm = some row) :
    row ∈ t.rows := by
  rw [resolveAzureUser_eq_or] at h
  rcases Option.or_eq_some.mp h with h1 | ⟨_, h1⟩
  · split at h1
    · exact queryFirst_mem h1
    · exact absurd h1 (by simp)
  · rcases Option.or_eq_some.mp h1 with h2 | ⟨_, h2⟩ <;>
    · split at h2
      · exact queryFirst_mem h2
      · exact absurd h2 (by simp)

theorem azureResolutionRid_lt {t0 : Table UserF} (hwf : TableWF t0)
    {r : AzureRecord} {i : Nat} (h : azureResolutionRid t0 r = some i) :
    i < t0.nextId := by
  unfold azureResolutionRid at h
  cases hres : resolveAzureUser t0 r.id (azureRecEmail r) (azureRecName r) with
  | none => rw [hres] at h; simp at h
  | some row =>
      rw [hres] at h
      simp at h
      rw [← h]
      exact hwf.1 row (resolveAzureUser_mem hres)

/-- The record's identifying fields, as `_upsert_users` writes them. -/
def recFields (r : AzureRecord) (row : Row UserF) : Prop :=
  row.current.azure_id = r.id ∧ row.current.email = azureRecEmail r
    ∧ row.current.name = azureRecName r

/-- Which row a record owns during a run: the row the pre-run resolver
picks, or (for a created record) a fresh row beyond the pre-run ids. -/
def recTarget (t0 : Table UserF) (r : AzureRecord) (row : Row UserF) : Prop :=
  match azureResolutionRid t0 r with
  | some i => row.rid = i
  | none => t0.nextId ≤ row.rid

/-- No two records of the batch resolve (against the pre-run table) to the
same existing row. -/
def DistinctRes (t0 : Table UserF) (rs : List AzureRecord) : Prop :=
  rs.Pairwise fun a b => ∀ i,
    azureResolutionRid t0 a = some i → azureResolutionRid t0 b ≠ some i

theorem azureStep_inv (now : Nat) {t0 t : Table UserF} (q : AzureRecord)
    (hsh : tableShadow t0 t) (hwf : TableWF t)
    (hnext : t0.nextId ≤ t.nextId) :
    tableShadow t0 (azureProcessRecord now t q).1
    ∧ TableWF (azureProcessRecord now t q).1
    ∧ t0.nextId ≤ (azureProcessRecord now t q).1.nextId
    ∧ (∃ row ∈ (azureProcessRecord now t q).1.rows, recFields q row ∧ recTarget t0 q row)
    ∧ (∀ row ∈ t.rows,
        (∀ i, azureResolutionRid t0 q = some i → row.rid ≠ i) →
        row ∈ (azureProcessRecord now t q).1.rows) := by
  have hshres := azureResolutionRid_shadow hsh q
  unfold azureProcessRecord
  dsimp only
  cases hres : resolveAzureUser t q.id (azureRecEmail q) (azureRecName q) with
  | some row =>
      have hres0 : azureResolutionRid t0 q = some row.rid := by
        rw [← hshres]
        unfold azureResolutionRid
        rw [hres]
        rfl
      have hrowmem : row ∈ t.rows := resolveAzureUser_mem hres
      dsimp only
      unfold applyAzureFields
      refine ⟨tableShadow_updateRow hsh _ _, TableWF_updateRow hwf _ _,
        le_trans hnext (le_of_eq rfl), ?_, ?_⟩
      · refine ⟨_, mem_updateRow_self hrowmem rfl, ?_, ?_⟩
        · exact ⟨rfl, rfl, rfl⟩
        · unfold recTarget
          rw [hres0]
      · intro r hr hkeep
        exact mem_updateRow_of_ne hr (hkeep row.rid hres0)
  | none =>
      have hres0 : azureResolutionRid t0 q = none := by
        rw [← hshres]
        unfold azureResolutionRid
        rw [hres]
        rfl
      dsimp only
      unfold applyAzureFields
      have hshins := tableShadow_insertRow hsh (azureNewUser q)
      have hwfins := TableWF_insertRow hwf (azureNewUser q)
      refine ⟨tableShadow_updateRow hshins _ _, TableWF_updateRow hwfins _ _, ?_, ?_, ?_⟩
      · exact le_trans hnext (Nat.le_succ _)
      · have hnew : ({ rid := t.nextId, durable := none, visible := none
                       current := azureNewUser q } : Row UserF)
            ∈ (insertRow t (azureNewUser q)).1.rows := by
          rw [insertRow]
          exact List.mem_append_right _ (by simp)
        refine ⟨_, mem_updateRow_self hnew rfl, ?_, ?_⟩
        · exact ⟨rfl, rfl, rfl⟩
        · unfold recTarget
          rw [hres0]
          exact hnext
      · intro r hr _
        have hmem : r ∈ (insertRow t (azureNewUser q)).1.rows := by
          rw [insertRow]
          exact List.mem_append_left _ hr
        exact mem_updateRow_of_ne hmem (Nat.ne_of_lt (hwf.1 r hr))

theorem azureLoop_inv (now : Nat) {t0 : Table UserF} (hwf0 : TableWF t0) :
    ∀ (rs pr : List AzureRecord) (t : Table UserF),
      tableShadow t0 t → TableWF t → t0.nextId ≤ t.nextId →
      DistinctRes t0 (pr ++ rs) →
      (∀ r ∈ pr, ∃ row ∈ t.rows, recFields r row ∧ recTarget t0 r row) →
      tableShadow t0 (azureLoopT now t rs)
      ∧ ∀ r ∈ pr ++ rs, ∃ row ∈ (azureLoopT now t rs).rows,
          recFields r row ∧ recTarget t0 r row := by
  intro rs
  induction rs with
  | nil =>
      intro pr t hsh hwf hnext hdist hpr
      simpa [azureLoopT] using ⟨hsh, hpr⟩
  | cons q rest ih =>
      intro pr t hsh hwf hnext hdist hpr
      obtain ⟨hsh2, hwf2, hnext2, hq, hkeep⟩ := azureStep_inv now q hsh hwf hnext
      have hdist2 : DistinctRes t0 ((pr ++ [q]) ++ rest) := by
        rw [List.append_assoc]
        simpa using hdist
      have hpr2 : ∀ r ∈ pr ++ [q],
          ∃ row ∈ (azureProcessRecord now t q).1.rows,
            recFields r row ∧ recTarget t0 r row := by
        intro r hr
        rcases List.mem_append.mp hr with hr | hr
        · obtain ⟨row, hrow, hf, ht⟩ := hpr r hr
          refine ⟨row, hkeep row hrow ?_, hf, ht⟩
          intro i hqi hri
          unfold recTarget at ht
          cases hrres : azureResolutionRid t0 r with
          | some j =>
              rw [hrres] at ht
              have hqr : ∀ i2, azureResolutionRid t0 r = some i2 →
                  azureResolutionRid t0 q ≠ some i2 := by
                have := (List.pairwise_append.mp
                  (by simpa using hdist)).2.2 r hr q (by simp)
                exact this
              exact hqr j hrres (by rw [hqi, ← hri, ht])
          | none =>
              rw [hrres] at ht
              have hlt : i < t0.nextId := azureResolutionRid_lt hwf0 hqi
              omega
        · simp at hr
          subst hr
          exact hq
      have := ih (pr ++ [q]) (azureProcessRecord now t q).1 hsh2 hwf2 hnext2 hdist2 hpr2
      refine ⟨this.1, ?_⟩
      intro r hr
      refine this.2 r ?_
      simpa using hr

theorem commitTable_length (t : Table UserF) :
    (commitTable t).rows.length = t.rows.length := by
  simp [commitTable]

theorem durableRows_commitTable (t : Table UserF) :
    (durableRows (commitTable t)).length = t.rows.length := by
  unfold durableRows commitTable
  dsimp only
  rw [List.filterMap_map]
  rw [show ((fun r : Row UserF => r.durable) ∘ fun r : Row UserF =>
      { r with durable := some r.current, visible := some r.current })
    = some ∘ (fun r : Row UserF => r.current) from rfl]
  rw [List.filterMap_eq_map, List.length_map]

theorem mem_commitTable {t : Table UserF} {row : Row UserF} (h : row ∈ t.rows) :
    ({ row with durable := some row.current, visible := some row.current } : Row UserF)
      ∈ (commitTable t).rows :=
  List.mem_map.mpr ⟨row, h, rfl⟩

theorem azureResolutionRid_ne_none {t : Table UserF} {r : AzureRecord}
    (hnm : pyTruthy (azureRecName r) = true)
    {row : Row UserF} (hmem : row ∈ t.rows) (hvis : row.visible = some row.current)
    (hf : recFields r row) :
    azureResolutionRid t r ≠ none := by
  unfold azureResolutionRid
  intro h
  rw [Option.map_eq_none', resolveAzureUser_eq_or] at h
  rw [Option.or_eq_none] at h
  obtain ⟨h1, h23⟩ := h
  rw [Option.or_eq_none] at h23
  obtain ⟨h2, h3⟩ := h23
  by_cases haid : pyTruthy r.id
  · rw [if_pos haid] at h1
    have := List.find?_eq_none.mp h1 row hmem
    refine this ?_
    unfold rowMatch
    rw [hvis]
    simp [hf.1]
  · by_cases hem : pyTruthy (azureRecEmail r)
    · rw [if_pos hem] at h2
      have := List.find?_eq_none.mp h2 row hmem
      refine this ?_
      unfold rowMatch
      rw [hvis]
      simp [hf.2.1]
    · rw [if_pos hnm] at h3
      have := List.find?_eq_none.mp h3 row hmem
      refine this ?_
      unfold rowMatch
      rw [hvis]
      simp [hf.2.2]

theorem azureRun2Aux (now : Nat) (T1 : Table UserF) :
    ∀ (rs : List AzureRecord) (t : Table UserF) (s : AzureStats),
      tableShadow T1 t →
      (∀ r ∈ rs, azureResolutionRid T1 r ≠ none) →
      (rs.foldl (azureFoldStep now) (t, s)).2.created = s.created
      ∧ (rs.foldl (azureFoldStep now) (t, s)).1.rows.length = t.rows.length := by
  intro rs
  induction rs with
  | nil => intro t s _ _; exact ⟨rfl, rfl⟩
  | cons q rest ih =>
      intro t s hsh hres
      have hq : azureResolutionRid t q ≠ none := by
        rw [azureResolutionRid_shadow hsh q]
        exact hres q (by simp)
      cases hres2 : resolveAzureUser t q.id (azureRecEmail q) (azureRecName q) with
      | none =>
          exact absurd (by unfold azureResolutionRid; rw [hres2]; rfl) hq
      | some row =>
          rw [List.foldl_cons]
          have hstep : azureFoldStep now (t, s) q
              = (applyAzureFields t row.rid q.id (azureRecEmail q) (azureRecName q)
                  q.department now,
                 { processed := s.processed + 1, created := s.created
                   updated := s.updated + 1 }) := by
            unfold azureFoldStep azureProcessRecord
            dsimp only
            rw [hres2]
            rfl
          rw [hstep]
          have hsh2 : tableShadow T1 (applyAzureFields t row.rid q.id
              (azureRecEmail q) (azureRecName q) q.department now) :=
            tableShadow_updateRow hsh _ _
          obtain ⟨h1, h2⟩ := ih _ _ hsh2 (fun r hr => hres r (List.mem_cons_of_mem _ hr))
          exact ⟨h1, h2.trans (updateRow_length ..)⟩

/-- A committed store with one user carrying azure id "a", email "e". -/
def collisionSeed : Table UserF :=
  seedTable [{ azure_id := some "a".data, email := some "e".data
               name := some "n".data }]

/-- Two records that both resolve to that user: one by primary id, one by
email. -/
def collisionBatch : List AzureRecord :=
  [{ id := some "a".data }, { mail := some "e".data }]

/-- C4 counterexample: with both records resolving to the same stored row
in the first run (the second record's writes overwrite the first's), the
second identical run reports one create, and the store grows from one
committed row to two. -/
theorem second_identical_run_creates :
    ((upsertUsersRun 1 (upsertUsersRun 0 collisionSeed collisionBatch).1
        collisionBatch).2.created = 1)
    ∧ ((durableRows (upsertUsersRun 0 collisionSeed collisionBatch).1).length = 1)
    ∧ ((durableRows (upsertUsersRun 1 (upsertUsersRun 0 collisionSeed collisionBatch).1
        collisionBatch).1).length = 2) :=
  ⟨by decide, by decide, by decide⟩

/-- C4 amended: for the Azure user merger, if every record of the batch
carries at least one identifier (equivalently, its derived name chain is
truthy) and no two records of the batch resolve to the same pre-existing
row, then running `_upsert_users` a second time with the identical batch
reports zero creates and leaves the committed user count unchanged. -/
theorem azure_merger_idempotent :
    ∀ (now now2 : Nat) (t0 : Table UserF) (rs : List AzureRecord),
      TableWF t0 →
      (∀ r ∈ rs, pyTruthy (azureRecName r) = true) →
      DistinctRes t0 rs →
      (upsertUsersRun now2 (upsertUsersRun now t0 rs).1 rs).2.created = 0
      ∧ (durableRows (upsertUsersRun now2 (upsertUsersRun now t0 rs).1 rs).1).length
        = (durableRows (upsertUsersRun now t0 rs).1).length := by
  intro now now2 t0 rs hwf0 hids hdist
  have hloop1 : (azureUpsertLoop now t0 rs).1 = azureLoopT now t0 rs := by
    unfold azureUpsertLoop
    exact azureLoop_table now rs t0 _
  obtain ⟨hshL1, hD⟩ := azureLoop_inv now hwf0 rs [] t0 (tableShadow_refl t0) hwf0
    le_rfl (by simpa using hdist) (by simp)
  have hX : (upsertUsersRun now t0 rs).1 = commitTable (azureLoopT now t0 rs) := by
    unfold upsertUsersRun
    dsimp only
    rw [hloop1]
  have hres : ∀ r ∈ rs,
      azureResolutionRid (commitTable (azureLoopT now t0 rs)) r ≠ none := by
    intro r hr
    obtain ⟨row, hrow, hf, _⟩ := hD r (by simpa using hr)
    exact azureResolutionRid_ne_none (hids r hr) (mem_commitTable hrow) rfl hf
  have h2 := azureRun2Aux now2 (commitTable (azureLoopT now t0 rs)) rs
    (commitTable (azureLoopT now t0 rs)) {} (tableShadow_refl _) hres
  constructor
  · have : (upsertUsersRun now2 (upsertUsersRun now t0 rs).1 rs).2
        = (azureUpsertLoop now2 (upsertUsersRun now t0 rs).1 rs).2 := rfl
    rw [this, hX]
    unfold azureUpsertLoop
    exact h2.1
  · have : (upsertUsersRun now2 (upsertUsersRun now t0 rs).1 rs).1
        = commitTable (azureUpsertLoop now2 (upsertUsersRun now t0 rs).1 rs).1 := rfl
    rw [this, hX, durableRows_commitTable]
    unfold azureUpsertLoop
    rw [h2.2, commitTable_length, durableRows_commitTable]

/-- A batch with a single identified record for the idempotence witness. -/
def witnessBatch : List AzureRecord := [{ displayName := some "Jane Doe".data }]

/-- Witness for C4's amended theorem: one record, empty store, two runs —
zero creates on the second and equal committed counts. -/
theorem azure_merger_idempotent_witness :
    (upsertUsersRun 1 (upsertUsersRun 0 (seedTable []) witnessBatch).1
        witnessBatch).2.created = 0
    ∧ (durableRows (upsertUsersRun 1 (upsertUsersRun 0 (seedTable []) witnessBatch).1
        witnessBatch).1).length
      = (durableRows (upsertUsersRun 0 (seedTable []) witnessBatch).1).length := by
  have hwf : TableWF (seedTable ([] : List UserF)) := by
    constructor
    · intro r hr
      simp [seedTable] at hr
    · simp [seedTable]
  have hids : ∀ r ∈ witnessBatch, pyTruthy (azureRecName r) = true := by decide
  have hdist : DistinctRes (seedTable []) witnessBatch := by
    unfold DistinctRes witnessBatch
    exact List.pairwise_singleton _ _
  exact azure_merger_idempotent 0 1 (seedTable []) witnessBatch hwf hids hdist
